import Mathlib

/-!
# Verification of the jacdac-circuitpython core runtime

Shallow embedding of `src/jacdac/jacdac/__init__.py` (helped by `util.py`).

Conventions of the embedding:
* bytes are `Nat`s below 256, byte buffers (`bytearray`) are `List Nat`;
* Python's arbitrary-precision integers are `Nat`/`Int`; `x & 0x7f` on a
  possibly-negative Python int is `Int.emod x 128` (both are the nonnegative
  residue);
* the device identifier is a hex string over the 8 header bytes in the source
  (`util.buf2hex`); hex encoding is injective, so identifiers are modeled as
  the underlying little-endian 64-bit value (a `Nat`) and identifier equality
  coincides with string equality in the source;
* object mutation becomes explicit state passing; `self.emit(...)` calls are
  recorded in an `Emit` trace list;
* the cyclic `Device.clients` / `Client.device` references are broken by
  keeping all clients in a table (the source's `bus.all_clients`, which only
  grows) and using table indices in `Device.clients` and device identifiers
  in `Client.device`.
-/

set_option maxHeartbeats 1000000

namespace Jacdac

/-- `util.u16(buf, off)`: little-endian 16-bit read.  Python raises on an
out-of-range read; the call sites below either read inside fixed-size buffers
or are explicitly guarded, so a 0 default never changes a reachable value. -/
def u16 (buf : List Nat) (off : Nat) : Nat :=
  buf.getD off 0 ||| (buf.getD (off + 1) 0 <<< 8)

/-- `util.u32(buf, off)`: little-endian 32-bit read. -/
def u32 (buf : List Nat) (off : Nat) : Nat :=
  buf.getD off 0 ||| (buf.getD (off + 1) 0 <<< 8) |||
  (buf.getD (off + 2) 0 <<< 16) ||| (buf.getD (off + 3) 0 <<< 24)

/-- Little-endian 64-bit read: the value behind the 8-byte device identifier
(`buf2hex(header[4:12])` in the source, modeled by its underlying number). -/
def u64 (buf : List Nat) (off : Nat) : Nat :=
  u32 buf off ||| (u32 buf (off + 4) <<< 32)

/-- `JDPacket`: 16 header bytes plus payload (`frombytes` split at 16). -/
structure JDPacket where
  header : List Nat
  data : List Nat
  deriving Repr, DecidableEq

deriving instance DecidableEq for Except

namespace JDPacket

/-- `service_command`: `util.u16(self._header, 14)`. -/
def service_command (p : JDPacket) : Nat := u16 p.header 14

/-- `packet_flags`: `self._header[3]`. -/
def packet_flags (p : JDPacket) : Nat := p.header.getD 3 0

/-- `device_identifier`: hex of `header[4:12]`, modeled by the underlying
little-endian value (hex encoding is injective). -/
def device_identifier (p : JDPacket) : Nat := u64 p.header 4

/-- `multicommand_class`: `u32(header, 4)` when flag
`JD_FRAME_FLAG_IDENTIFIER_IS_SERVICE_CLASS = 0x04` is set, else `None`. -/
def multicommand_class (p : JDPacket) : Option Nat :=
  if p.packet_flags &&& 0x04 ≠ 0 then some (u32 p.header 4) else none

/-- `size`: `self._header[12]`. -/
def size (p : JDPacket) : Nat := p.header.getD 12 0

/-- `service_index`: `self._header[13] & JD_SERVICE_INDEX_MASK (0x3f)`. -/
def service_index (p : JDPacket) : Nat := p.header.getD 13 0 &&& 0x3f

/-- `crc`: `util.u16(self._header, 0)`. -/
def crc (p : JDPacket) : Nat := u16 p.header 0

/-- `is_command`: `(self.packet_flags & JD_FRAME_FLAG_COMMAND) != 0`. -/
def is_command (p : JDPacket) : Bool := p.packet_flags &&& 0x01 ≠ 0

/-- `is_report`: `(self.packet_flags & JD_FRAME_FLAG_COMMAND) == 0`. -/
def is_report (p : JDPacket) : Bool := p.packet_flags &&& 0x01 == 0

/-- `is_event`: `self.is_report and (self.service_command & CMD_EVENT_MASK) != 0`. -/
def is_event (p : JDPacket) : Bool :=
  p.is_report && p.service_command &&& 0x8000 ≠ 0

/-- `event_code`: low 8 bits of the command, for events. -/
def event_code (p : JDPacket) : Option Nat :=
  if p.is_event then some (p.service_command &&& 0xff) else none

/-- `event_counter`: bits 8..15 of the command masked to 7 bits, for events. -/
def event_counter (p : JDPacket) : Option Nat :=
  if p.is_event then some ((p.service_command >>> 8) &&& 0x7f) else none

/-- `is_reg_set`: `self.service_command >> 12 == CMD_SET_REG >> 12` (2). -/
def is_reg_set (p : JDPacket) : Bool := p.service_command >>> 12 == 2

/-- `is_reg_get`: `self.service_command >> 12 == CMD_GET_REG >> 12` (1). -/
def is_reg_get (p : JDPacket) : Bool := p.service_command >>> 12 == 1

/-- `reg_code`: `self.service_command & CMD_REG_MASK (0x0fff)`. -/
def reg_code (p : JDPacket) : Nat := p.service_command &&& 0xfff

end JDPacket

/-- Build a packet out of its header fields (test harness for concrete
inputs; `id8` is the 8-byte identifier, `cmd < 0x10000`). -/
def mkPacket (flags : Nat) (id8 : List Nat) (serviceIndex : Nat) (cmd : Nat)
    (data : List Nat) : JDPacket :=
  { header := [0, 0, 0, flags] ++ id8 ++
      [data.length, serviceIndex, cmd % 256, cmd / 256],
    data := data }

/-- Everything the runtime `emit`s (bus-, device- and client-level events),
plus a record of which clients a packet was dispatched to
(`c.handle_packet_outer(pkt)` calls). -/
inductive Emit where
  | packetProcess : Emit
  | packetReceive (devId : Nat) : Emit
  | event (devId : Nat) : Emit
  | busEvent : Emit
  | restart : Emit
  | deviceConnect (devId : Nat) : Emit
  | deviceAnnounce (devId : Nat) : Emit
  | deviceChange : Emit
  | change : Emit
  | selfAnnounce : Emit
  | connected (cid : Nat) : Emit
  | disconnected (cid : Nat) : Emit
  | clientHandle (cid : Nat) : Emit
  | regChange (data : Option (List Nat)) : Emit
  deriving Repr, DecidableEq

/-- The state of a `Client` (attachment-relevant fields; the register caches
of a client are modeled separately by `RawRegisterClient`, they do not feed
back into routing). `device`/`current_device` hold device identifiers. -/
structure ClientT where
  broadcast : Bool
  service_class : Nat
  role : String
  service_index : Option Nat
  device : Option Nat
  current_device : Option Nat
  deriving Repr, DecidableEq

/-- The state of a `Device`.  `clients` holds indices into the bus's client
table (the source's `bus.all_clients`).  A destroyed device (whose `clients`
is set to `None` in the source) is simply dropped from the device table. -/
structure DeviceT where
  device_id : Nat
  services : List Nat
  clients : List Nat
  last_seen : Nat
  event_counter : Option Nat
  deriving Repr, DecidableEq

namespace DeviceT

/-- `num_service_classes`: `len(self.services) >> 2`. -/
def num_service_classes (d : DeviceT) : Nat := d.services.length >>> 2

/-- `service_class_at(idx)`: 0 at index 0, `None` out of range, else the
little-endian u32 at offset `idx << 2`.  (`idx < 0` cannot arise: every call
site passes a masked 6-bit value or a loop index.) -/
def service_class_at (d : DeviceT) (idx : Nat) : Option Nat :=
  if idx = 0 then some 0
  else if idx ≥ d.num_service_classes then none
  else some (u32 d.services (idx <<< 2))

/-- `announce_flags`: `util.u16(self.services, 0)`. -/
def announce_flags (d : DeviceT) : Nat := u16 d.services 0

/-- `reset_count`: `announce_flags & 0xf`. -/
def reset_count (d : DeviceT) : Nat := d.announce_flags &&& 0xf

end DeviceT

/-- Result of a `Device.process_packet` step: the device, the client table
and the recorded emissions. -/
structure DevStep where
  dev : DeviceT
  clients : List ClientT
  emits : List Emit
  deriving Repr, DecidableEq

/-- The event-counter window of `Device.process_packet` (lines 802-813),
deciding whether an event with 7-bit counter `c` is dropped given the stored
`_event_counter`:
`ec = (event_counter if not None else c - 1) + 1`,
`ahead = (c - ec) & 0x7f`, `behind = (ec - c) & 0x7f` (Python's `& 0x7f` on a
possibly-negative int is the nonnegative residue mod 128), drop iff
`ahead > 0 and (behind < 60 or ahead < 5)`. -/
def eventDecisionDrop (ec0 : Option Nat) (c : Nat) : Bool :=
  let ec : Int := (match ec0 with
    | some v => (v : Int)
    | none => (c : Int) - 1) + 1
  let ahead := ((c : Int) - ec) % 128
  let behind := (ec - (c : Int)) % 128
  decide (0 < ahead ∧ (behind < 60 ∨ ahead < 5))

/-- The dispatch loop at the end of `Device.process_packet`: for each
attached client matching the packet (broadcast clients by service class,
others by service index), set `c.current_device = self` and call
`c.handle_packet_outer(pkt)` (recorded as `Emit.clientHandle`). -/
def deliver (clients : List ClientT) (devId : Nat) (sc : Nat) (idx : Nat) :
    List Nat → List ClientT × List Emit
  | [] => (clients, [])
  | cid :: rest =>
    match clients[cid]? with
    | none => deliver clients devId sc idx rest
    | some c =>
      if (c.broadcast = true ∧ c.service_class = sc) ∨
         (c.broadcast = false ∧ c.service_index = some idx) then
        let clients' := clients.set cid { c with current_device := some devId }
        let r := deliver clients' devId sc idx rest
        (r.1, Emit.clientHandle cid :: r.2)
      else deliver clients devId sc idx rest

/-- `Device.process_packet` (lines 793-826): refresh `last_seen`, emit
`PACKET_RECEIVE`; bail out when the service class is unusable (`None`, 0 or
0xffffffff); run the event-counter window for events (dropping the packet
entirely on a stale/slightly-ahead counter); then dispatch to attached
clients. -/
def DeviceT.process_packet (d : DeviceT) (clients : List ClientT)
    (pkt : JDPacket) (t : Nat) : DevStep :=
  let d := { d with last_seen := t }
  let em0 := [Emit.packetReceive d.device_id]
  match d.service_class_at pkt.service_index with
  | none => ⟨d, clients, em0⟩
  | some service_class =>
    if service_class = 0 ∨ service_class = 0xffffffff then ⟨d, clients, em0⟩
    else if pkt.is_event then
      let c := (pkt.service_command >>> 8) &&& 0x7f
      if eventDecisionDrop d.event_counter c then ⟨d, clients, em0⟩
      else
        let d := { d with event_counter := some c }
        let r := deliver clients d.device_id service_class pkt.service_index d.clients
        ⟨d, r.1, em0 ++ [Emit.event d.device_id, Emit.busEvent] ++ r.2⟩
    else
      let r := deliver clients d.device_id service_class pkt.service_index d.clients
      ⟨d, r.1, em0 ++ r.2⟩

/-! ## RawRegisterClient (the client-side register cache) -/

/-- State of a `RawRegisterClient`: `code`, `_data` (`None` until a report
arrives) and `_refreshed_at` (set to 0 in `__init__`). -/
structure RawRegisterClient where
  code : Nat
  data : Option (List Nat)
  refreshed_at : Nat
  deriving Repr, DecidableEq

namespace RawRegisterClient

/-- `current(refresh_ms)` at time `t` (`now()`): the cached data when
`self._refreshed_at + refresh_ms >= now()`, else `None`. -/
def current (r : RawRegisterClient) (refresh_ms : Nat) (t : Nat) :
    Option (List Nat) :=
  if r.refreshed_at + refresh_ms ≥ t then r.data else none

/-- `handle_packet(pkt)`: on `is_reg_get` with the matching code, store the
payload as `_data` and emit `CHANGE` with it.  (Note: the source updates
only `_data`; `_refreshed_at` is not touched anywhere outside `__init__`.) -/
def handle_packet (r : RawRegisterClient) (pkt : JDPacket) :
    RawRegisterClient × List Emit :=
  if pkt.is_reg_get ∧ pkt.reg_code = r.code then
    ({ r with data := some pkt.data }, [Emit.regChange (some pkt.data)])
  else (r, [])

end RawRegisterClient

/-- The three delayed callbacks scheduled by `RawRegisterClient.refresh`. -/
inductive RegCb where
  | first : RegCb
  | second : RegCb
  | final : RegCb
  deriving Repr, DecidableEq

/-- Discrete-event state for one `refresh()` call: the register entry, the
captured `prev_data` (closed over by all three callbacks), the times at which
`_query()` submitted a register-get command, the `CHANGE` emissions, and the
pending `delayed_callback`s with their absolute due times (ms). -/
structure RegRefreshSim where
  reg : RawRegisterClient
  prev : Option (List Nat)
  sends : List Nat
  emits : List (Nat × Option (List Nat))
  pending : List (Nat × RegCb)
  deriving Repr, DecidableEq

/-- `refresh()` at time `t0`: capture `prev_data`, `self._query()` once, and
schedule `first_refresh` for 20 ms later (`delayed_callback(0.020, ...)`). -/
def regRefreshStart (r : RawRegisterClient) (t0 : Nat) : RegRefreshSim :=
  { reg := r, prev := r.data, sends := [t0], emits := [],
    pending := [(t0 + 20, RegCb.first)] }

/-- One scheduled callback of `refresh` firing at time `t`.  Each checks
`prev_data is self._data`; with no interleaving report `_data` is the very
object captured in `prev_data`, so identity agrees with equality here.
`first_refresh` re-queries and schedules `second_refresh` 50 ms later;
`second_refresh` re-queries and schedules `final_check` 100 ms later;
`final_check` clears `_data` and emits `CHANGE` with `None`. -/
def regRunCb (st : RegRefreshSim) (t : Nat) : RegCb → RegRefreshSim
  | RegCb.first =>
    if st.prev = st.reg.data then
      { st with sends := st.sends ++ [t],
                pending := st.pending ++ [(t + 50, RegCb.second)] }
    else st
  | RegCb.second =>
    if st.prev = st.reg.data then
      { st with sends := st.sends ++ [t],
                pending := st.pending ++ [(t + 100, RegCb.final)] }
    else st
  | RegCb.final =>
    if st.prev = st.reg.data then
      { st with reg := { st.reg with data := none },
                emits := st.emits ++ [(t, none)] }
    else st

/-- Run the scheduler with no inbound report interleaved: pop pending
callbacks in order until none remain (`fuel` bounds the recursion; 3 is
enough for one refresh chain). -/
def regRun : RegRefreshSim → Nat → RegRefreshSim
  | st, 0 => st
  | st, fuel + 1 =>
    match st.pending with
    | [] => st
    | (t, cb) :: rest => regRun (regRunCb { st with pending := rest } t cb) fuel

/-- The failure raised by `query` (`RuntimeError("Can't read reg ...")`). -/
inductive RegError where
  | regTimeout : RegError
  deriving Repr, DecidableEq

/-- `query(refresh_ms)` started at time `t0` when no inbound report ever
arrives: take `current`; a truthy value (non-`None`, non-empty — Python
truthiness) is returned at once; otherwise `refresh()` runs, the query
suspends on `CHANGE`, resumes once the change fires, and raises when
`self._data is None`.  Returns the outcome and the refresh trace. -/
def queryNoReport (r : RawRegisterClient) (refresh_ms t0 : Nat) :
    Except RegError (List Nat) × RegRefreshSim :=
  let runSim := regRun (regRefreshStart r t0) 3
  let afterWait :=
    if runSim.reg.data = none then Except.error RegError.regTimeout
    else Except.ok (runSim.reg.data.getD [])
  match r.current refresh_ms t0 with
  | some d =>
    if d ≠ [] then
      (Except.ok d, { reg := r, prev := r.data, sends := [], emits := [], pending := [] })
    else (afterWait, runSim)
  | none => (afterWait, runSim)

/-! ## ACK awaiters

The executable Python source drops CRC-ACK packets: `Bus.process_packet`
(line 482-484) matches `service_index == JD_SERVICE_INDEX_CRC_ACK` and does
nothing (`# _got_ack(pkt)` is commented out), and no awaiter machinery exists
in `__init__.py`.  The definitions below are therefore modeled from the spec
(§4.H "ACK reception") and the TypeScript sketch kept in
`src/jacdac/jacdac.py` (`_gotAck`, `AckAwaiter`). -/

/-- Modelled from the spec: an ACK awaiter `(pkt, destination_id, crc,
retries_used, next_retry_ts | 0 | -1)`; pending iff `0 < nextRetry`,
acknowledged at 0, failed at -1.  `srcId` is the destination device
identifier the command was sent to. -/
structure AckAwaiter where
  crc : Nat
  srcId : Nat
  numTries : Nat
  nextRetry : Int
  deriving Repr, DecidableEq

/-- Modelled from the spec: `_gotAck(pkt)` — the acked CRC arrives in
`service_command`; every awaiter matching `(crc, srcId)` has `next_retry`
set to 0 and is notified; notified awaiters are dropped from the list.
Returns the remaining awaiters and the notified ones. -/
def gotAck (awaiters : List AckAwaiter) (pkt : JDPacket) :
    List AckAwaiter × List AckAwaiter :=
  let srcId := pkt.device_identifier
  let crc := pkt.service_command
  let marked := awaiters.map fun a =>
    if a.crc = crc ∧ a.srcId = srcId then { a with nextRetry := 0 } else a
  let notified := marked.filter fun a =>
    decide (a.crc = crc ∧ a.srcId = srcId)
  (if notified ≠ [] then marked.filter (fun a => a.nextRetry ≠ 0) else marked,
   notified)

/-- Modelled from the spec: the router hands a packet to the ACK tracker
exactly when `service_index == JD_SERVICE_INDEX_CRC_ACK (0x3f)`. -/
def busAckDispatch (awaiters : List AckAwaiter) (pkt : JDPacket) :
    List AckAwaiter × List AckAwaiter :=
  if pkt.service_index = 0x3f then gotAck awaiters pkt else (awaiters, [])

/-- Modelled from the spec: a sender suspended on an awaiter reports success
iff, once resumed, the awaiter's `next_retry` is 0 (`return aw.nextRetry == 0`
in the sketch). -/
def ackSenderSuccess (a : AckAwaiter) : Bool := a.nextRetry == 0

/-! ## Bus routing: dispatch of commands addressed to the own device -/

/-- Python exceptions surfaced by the embedded fragments. -/
inductive PyError where
  | indexError : PyError
  | valueError : PyError
  deriving Repr, DecidableEq

/-- `Bus.process_packet` lines 441-445, the own-command branch:
`h = self.servers[pkt.service_index]` — Python list indexing raises
`IndexError` when the index is out of range; otherwise `if h:` always holds
(the server table holds only server objects) and the server at that index
handles the packet.  Returns the handling server's index. -/
def busHandleOwnCommand (servers : List Nat) (pkt : JDPacket) :
    Except PyError (Option Nat) :=
  match servers[pkt.service_index]? with
  | none => Except.error PyError.indexError
  | some _ => Except.ok (some pkt.service_index)

/-! ## Client.send_cmd -/

/-- Little-endian byte decomposition of a device identifier, used by the
`device_identifier` setter (which writes `hex2buf(id_str)` into
`header[4:12]`). -/
def natToBytes8 (n : Nat) : List Nat :=
  [n % 256, n / 256 % 256, n / 256 ^ 2 % 256, n / 256 ^ 3 % 256,
   n / 256 ^ 4 % 256, n / 256 ^ 5 % 256, n / 256 ^ 6 % 256, n / 256 ^ 7 % 256]

/-- `Client.send_cmd(pkt)` (lines 685-691): return silently when
`current_device is None`; otherwise set the packet's `service_index` (the
setter raises `ValueError("service_index not set")` when the value is
`None`), set `device_identifier` to the current device, set the COMMAND
flag, and submit via `bus._send_core`.  `.ok none` means nothing was
submitted; `.ok (some p)` means `p` was submitted. -/
def ClientT.send_cmd (c : ClientT) (pkt : JDPacket) :
    Except PyError (Option JDPacket) :=
  match c.current_device with
  | none => Except.ok none
  | some did =>
    match c.service_index with
    | none => Except.error PyError.valueError
    | some idx =>
      let h := pkt.header
      let h := h.set 13 ((h.getD 13 0 &&& 0xc0) ||| idx)
      let h := (h.take 4 ++ natToBytes8 did ++ h.drop 12)
      let h := h.set 3 (h.getD 3 0 ||| 0x01)
      Except.ok (some { pkt with header := h })

/-! ## The Bus routing state

`servers` records the service classes of the registered servers (their
`service_index` is their position, per `Server.__init__`).  `clients` is the
source's `bus.all_clients` (it only ever grows, so indices are stable ids);
`unattached` is `bus.unattached_clients`, a list of such indices. -/

structure BusState where
  selfId : Nat
  devices : List DeviceT
  clients : List ClientT
  unattached : List Nat
  servers : List Nat
  deriving Repr, DecidableEq

/-- Write an updated device back into the table.  Python mutates the device
object in place; identifiers are unique in the table (an invariant proved
below), so updating by identifier is the same thing. -/
def updDev (devices : List DeviceT) (d : DeviceT) : List DeviceT :=
  devices.map fun x => if x.device_id = d.device_id then d else x

/-- `Client._detach` (lines 709-717) on client `cid`, acting on the client
table and the unattached list: clear `service_index`; for a non-broadcast
client clear `device` and re-append to the unattached list; emit
`DISCONNECTED`.  (The caller owns removal from the device's client list.) -/
def detachClient (clients : List ClientT) (unattached : List Nat) (cid : Nat) :
    List ClientT × List Nat × List Emit :=
  match clients[cid]? with
  | none => (clients, unattached, [])
  | some c =>
    if c.broadcast = false then
      (clients.set cid { c with service_index := none, device := none },
       unattached ++ [cid], [Emit.disconnected cid])
    else
      (clients.set cid { c with service_index := none }, unattached,
       [Emit.disconnected cid])

/-- `Client._attach(dev, service_idx)` (lines 696-707) on client `cid`:
for a non-broadcast client (`matches_role_at` returns `True` on every path
in the source) set `device` and `service_index` and remove the client from
the unattached list; emit `CONNECTED`; report `True`.  (The caller owns the
`dev.clients.append(self)`.) -/
def attachClient (clients : List ClientT) (unattached : List Nat) (cid : Nat)
    (devId : Nat) (idx : Nat) : List ClientT × List Nat × List Emit × Bool :=
  match clients[cid]? with
  | none => (clients, unattached, [], false)
  | some c =>
    if c.broadcast = false then
      (clients.set cid { c with device := some devId, service_index := some idx },
       unattached.erase cid, [Emit.connected cid], true)
    else (clients, unattached, [Emit.connected cid], true)

/-- `Device._destroy` (lines 787-791): detach every attached client in
order.  (The device itself is dropped from the device table by the caller;
`self.clients = None` has no further observable effect.) -/
def destroyClients (clients : List ClientT) (unattached : List Nat) :
    List Nat → List ClientT × List Nat × List Emit
  | [] => (clients, unattached, [])
  | cid :: rest =>
    let r := detachClient clients unattached cid
    let r2 := destroyClients r.1 r.2.1 rest
    (r2.1, r2.2.1, r.2.2 ++ r2.2.2)

/-- `_service_matches(dev, serv)`: `False` when the device has no services
or the lengths differ, else byte-wise equality from offset 4 on (the first
four bytes carry the announce flags). -/
def serviceMatches (dev : DeviceT) (serv : List Nat) : Bool :=
  if dev.services = [] ∨ dev.services.length ≠ serv.length then false
  else dev.services.drop 4 == serv.drop 4

/-- The first loop of `Bus._reattach` (lines 387-401), scanning the device's
previous client list with the already-updated device: broadcast clients are
detached (they re-attach below); a non-broadcast client is retained when the
new class at its index still equals its `service_class` (`matches_role_at`
returns `True`); others are detached.  Returns the updated client table and
unattached list, the retained `new_clients`, the `occupied` service indices
and the emissions.  (On a retained client the source reads
`dev.service_class_at(c.service_index)` with `c.service_index` an `int`;
attached clients always have one — `Option.getD` below never pads a
reachable value.) -/
def reattachScan (dev : DeviceT) (clients : List ClientT) (unattached : List Nat) :
    List Nat → List ClientT × List Nat × List Nat × List Nat × List Emit
  | [] => (clients, unattached, [], [], [])
  | cid :: rest =>
    match clients[cid]? with
    | none => reattachScan dev clients unattached rest
    | some c =>
      if c.broadcast = true then
        let r := detachClient clients unattached cid
        let r2 := reattachScan dev r.1 r.2.1 rest
        (r2.1, r2.2.1, r2.2.2.1, r2.2.2.2.1, r.2.2 ++ r2.2.2.2.2)
      else
        let new_class := match c.service_index with
          | some i => dev.service_class_at i
          | none => none
        if new_class = some c.service_class then
          let r2 := reattachScan dev clients unattached rest
          (r2.1, r2.2.1, cid :: r2.2.2.1, c.service_index.getD 0 :: r2.2.2.2.1,
           r2.2.2.2.2)
        else
          let r := detachClient clients unattached cid
          let r2 := reattachScan dev r.1 r.2.1 rest
          (r2.1, r2.2.1, r2.2.2.1, r2.2.2.2.1, r.2.2 ++ r2.2.2.2.2)

/-- The inner loop of the attach scan (`for cc in self.unattached_clients`):
the first unattached client whose `service_class` matches the class at slot
`i` is attached (`_attach` appends to the device's client list) and the loop
breaks.  Iterating a snapshot of the unattached list is faithful: a
successful `_attach` breaks at once, and an unsuccessful one does not mutate
the list. -/
def attachCands (dev : DeviceT) (i : Nat) (clients : List ClientT)
    (unattached : List Nat) (devClients : List Nat) :
    List Nat → List ClientT × List Nat × List Nat × List Emit
  | [] => (clients, unattached, devClients, [])
  | cid :: rest =>
    match clients[cid]? with
    | none => attachCands dev i clients unattached devClients rest
    | some c =>
      if some c.service_class = dev.service_class_at i then
        let r := attachClient clients unattached cid dev.device_id i
        if r.2.2.2 then (r.1, r.2.1, devClients ++ [cid], r.2.2.1)
        else attachCands dev i r.1 r.2.1 devClients rest
      else attachCands dev i clients unattached devClients rest

/-- The outer loop of the attach scan (`for i in range(1, ...)`), skipping
occupied slots.  The candidate list is re-read from the current unattached
list at each slot, as the source does. -/
def attachLoop (dev : DeviceT) (occ : List Nat) :
    List ClientT → List Nat → List Nat → List Nat →
    List ClientT × List Nat × List Nat × List Emit
  | clients, unattached, devClients, [] => (clients, unattached, devClients, [])
  | clients, unattached, devClients, i :: rest =>
    if i ∈ occ then attachLoop dev occ clients unattached devClients rest
    else
      let r := attachCands dev i clients unattached devClients unattached
      let r2 := attachLoop dev occ r.1 r.2.1 r.2.2.1 rest
      (r2.1, r2.2.1, r2.2.2.1, r.2.2.2 ++ r2.2.2.2)

/-- `Bus._reattach(dev)` (lines 383-414): refresh `last_seen`, scan the
existing attachments, install the retained client list, emit
`DEVICE_ANNOUNCE`, and - unless the unattached list is empty - walk the
service slots from 1 attaching matching unattached clients.  `dev` must be
the table's device with that identifier (Python aliasing). -/
def busReattach (s : BusState) (dev : DeviceT) (t : Nat) : BusState × List Emit :=
  let dev := { dev with last_seen := t }
  let r := reattachScan dev s.clients s.unattached dev.clients
  let dev := { dev with clients := r.2.2.1 }
  let em := r.2.2.2.2 ++ [Emit.deviceAnnounce dev.device_id]
  if r.2.1 = [] then
    ({ s with clients := r.1, unattached := r.2.1, devices := updDev s.devices dev },
     em)
  else
    let idxs := List.range' 1 (dev.num_service_classes - 1)
    let r2 := attachLoop dev r.2.2.2.1 r.1 r.2.1 dev.clients idxs
    let s' := { s with
      clients := r2.1
      unattached := r2.2.1
      devices := updDev s.devices { dev with clients := r2.2.2.1 } }
    (s', em ++ r2.2.2.2)

/-- `dev.process_packet(pkt)` from inside the router: look the device up by
identifier and fold the `DevStep` back into the bus state. -/
def devProcessById (s : BusState) (did : Nat) (pkt : JDPacket) (t : Nat) :
    BusState × List Emit :=
  match s.devices.find? (fun d => d.device_id == did) with
  | none => (s, [])
  | some d =>
    let st := d.process_packet s.clients pkt t
    ({ s with devices := updDev s.devices st.dev, clients := st.clients },
     st.emits)

/-- `Bus.process_packet` (lines 416-491) as a bus-state transformer.  The
multi-command and own-command branches dispatch to local servers only and do
not touch the routing state modeled here (for the own-command branch see
`busHandleOwnCommand`: a raised `IndexError` also leaves the state
unmodified).  The announce branch follows lines 456-481; a `CRC_ACK` packet
falls through the `pass` to the generic device dispatch. -/
def busProcessPacket (s : BusState) (pkt : JDPacket) (t : Nat) :
    BusState × List Emit :=
  let em0 := [Emit.packetProcess]
  if pkt.multicommand_class ≠ none then (s, em0)
  else if pkt.device_identifier = s.selfId ∧ pkt.is_command then (s, em0)
  else if pkt.is_command then (s, em0)
  else
    let devM := s.devices.find? (fun d => d.device_id == pkt.device_identifier)
    if pkt.service_index = 0 then
      if pkt.service_command = 0 then
        match devM with
        | some dev =>
          -- `dev and dev.reset_count > (pkt.data[0] & 0xf)`: with a short
          -- announce payload or a services buffer under 2 bytes Python
          -- raises IndexError here, before any mutation
          if dev.services.length < 2 ∨ pkt.data = [] then (s, em0)
          else if pkt.data.getD 0 0 &&& 0xf < dev.reset_count then
            let s1 := { s with
              devices := s.devices.eraseP (fun d => d.device_id == dev.device_id) }
            let r := destroyClients s1.clients s1.unattached dev.clients
            let newDev : DeviceT :=
              ⟨pkt.device_identifier, pkt.data, [], t, none⟩
            let s2 := { s1 with
              clients := r.1
              unattached := r.2.1
              devices := s1.devices ++ [newDev] }
            let r2 := busReattach s2 newDev t
            let r3 := devProcessById r2.1 pkt.device_identifier pkt t
            (r3.1, em0 ++ r.2.2 ++
              [Emit.restart, Emit.deviceConnect pkt.device_identifier] ++
              r2.2 ++ r3.2)
          else
            let svcMatch := serviceMatches dev pkt.data
            let dev' := { dev with services := pkt.data }
            let s1 := { s with devices := updDev s.devices dev' }
            if svcMatch then
              let r3 := devProcessById s1 pkt.device_identifier pkt t
              (r3.1, em0 ++ r3.2)
            else
              let r2 := busReattach s1 dev' t
              let r3 := devProcessById r2.1 pkt.device_identifier pkt t
              (r3.1, em0 ++ r2.2 ++ r3.2)
        | none =>
          let newDev : DeviceT := ⟨pkt.device_identifier, pkt.data, [], t, none⟩
          let s1 := { s with devices := s.devices ++ [newDev] }
          let r2 := busReattach s1 newDev t
          let r3 := devProcessById r2.1 pkt.device_identifier pkt t
          (r3.1, em0 ++ [Emit.deviceConnect pkt.device_identifier] ++ r2.2 ++ r3.2)
      else
        match devM with
        | some dev =>
          let r3 := devProcessById s dev.device_id pkt t
          (r3.1, em0 ++ r3.2)
        | none => (s, em0)
    else
      match devM with
      | none => (s, em0)
      | some dev =>
        let r3 := devProcessById s dev.device_id pkt t
        (r3.1, em0 ++ r3.2)

/-- `Bus._gc_devices` inner loop: a device whose `last_seen` is older than
`cutoff = now - 2000` is destroyed and dropped; the flag records whether
anything was dropped. -/
def gcScan (clients : List ClientT) (unattached : List Nat) (t : Nat) :
    List DeviceT → List DeviceT × List ClientT × List Nat × Bool × List Emit
  | [] => ([], clients, unattached, false, [])
  | d :: rest =>
    if (d.last_seen : Int) < (t : Int) - 2000 then
      let r := destroyClients clients unattached d.clients
      let r2 := gcScan r.1 r.2.1 t rest
      (r2.1, r2.2.1, r2.2.2.1, true, r.2.2 ++ r2.2.2.2.2)
    else
      let r2 := gcScan clients unattached t rest
      (d :: r2.1, r2.2.1, r2.2.2.1, r2.2.2.2.1, r2.2.2.2.2)

/-- `Bus._gc_devices` (lines 347-361): refresh the self device's `last_seen`
first (so it is never collected), then collect; emit `DEVICE_CHANGE` and
`CHANGE` when anything was dropped. -/
def gcDevices (s : BusState) (t : Nat) : BusState × List Emit :=
  let devices := s.devices.map fun d =>
    if d.device_id = s.selfId then { d with last_seen := t } else d
  let r := gcScan s.clients s.unattached t devices
  ({ s with devices := r.1, clients := r.2.1, unattached := r.2.2.1 },
   r.2.2.2.2 ++ if r.2.2.2.1 then [Emit.deviceChange, Emit.change] else [])

/-- The touched device list `_gc_devices` scans: the self device's
`last_seen` is refreshed first so it is never collected. -/
def gcTouched (s : BusState) (t : Nat) : List DeviceT :=
  s.devices.map fun d =>
    if d.device_id = s.selfId then { d with last_seen := t } else d

/-- `Client.__init__(bus, service_class, role)`: a fresh client is appended
to `all_clients` and to the unattached list. -/
def newClient (s : BusState) (sc : Nat) (role : String) : BusState :=
  { s with
    clients := s.clients ++
      [{ broadcast := false, service_class := sc, role := role,
         service_index := none, device := none, current_device := none }],
    unattached := s.unattached ++ [s.clients.length] }

/-- `Server.__init__`: the server's `service_index` is its position in the
table. -/
def addServer (s : BusState) (sc : Nat) : BusState :=
  { s with servers := s.servers ++ [sc] }

/-- `Bus.__init__` at time `t0`: the self device (`services = bytearray(4)`)
is in the device table, and the control server (service class 0) is
registered.  The two sample clients created by `Bus.__init__` go through the
plain `Client` constructor, i.e. through the `newClient` step. -/
def initState (selfId t0 : Nat) : BusState :=
  { selfId := selfId,
    devices := [⟨selfId, [0, 0, 0, 0], [], t0, none⟩],
    clients := [], unattached := [], servers := [0] }

/-- The attachment invariant of a bus state.  `main` is claim C4 (every
attached client is listed by its device, sits at a positive service index,
and the device's class there is the client's); the remaining fields are the
auxiliary facts needed to push `main` through the transitions: device lists
point back (`back`), no broadcast clients exist in this program (`nobc`),
unattached-list members are detached (`unatt`), the unattached list and the
per-device client lists hold no duplicates, and device identifiers are
unique. -/
structure BusInv (s : BusState) : Prop where
  main : ∀ (cid : Nat) (c : ClientT) (dId : Nat),
    s.clients[cid]? = some c → c.device = some dId →
    ∃ d, d ∈ s.devices ∧ d.device_id = dId ∧ cid ∈ d.clients ∧
      ∃ i, c.service_index = some i ∧ 0 < i ∧
        d.service_class_at i = some c.service_class
  back : ∀ d ∈ s.devices, ∀ cid ∈ d.clients,
    ∃ c, s.clients[cid]? = some c ∧ c.device = some d.device_id
  nobc : ∀ (cid : Nat) (c : ClientT),
    s.clients[cid]? = some c → c.broadcast = false
  unatt : ∀ cid ∈ s.unattached, ∃ c, s.clients[cid]? = some c ∧ c.device = none
  unodup : s.unattached.Nodup
  dnodup : ∀ d ∈ s.devices, d.clients.Nodup
  uniq : (s.devices.map DeviceT.device_id).Nodup

/-- The working invariant of `Bus._reattach`'s attach scan over a fixed
device: unattached candidates are detached non-broadcast clients, the
device's client list so far holds attached clients at positive indices with
matching classes, and both lists are duplicate-free. -/
def LoopInv (dev : DeviceT) (clients : List ClientT)
    (un devClients : List Nat) : Prop :=
  (∀ cid ∈ un, ∃ c, clients[cid]? = some c ∧ c.device = none ∧
    c.broadcast = false) ∧
  un.Nodup ∧
  (∀ cid ∈ devClients, ∃ c, clients[cid]? = some c ∧
    c.device = some dev.device_id ∧ c.broadcast = false ∧
    ∃ i, c.service_index = some i ∧ 0 < i ∧
      dev.service_class_at i = some c.service_class) ∧
  devClients.Nodup

/-- The bus states reachable from construction through the operations the
runtime performs: routing an arbitrary inbound or looped-back packet,
the periodic device GC, and client/server construction by application code
(`Device.ctrl_client` is never accessed anywhere in the repository, so the
lazily-attached control client never comes into being). -/
inductive Reachable : BusState → Prop
  | init (selfId t0 : Nat) : Reachable (initState selfId t0)
  | packet (s : BusState) (pkt : JDPacket) (t : Nat) :
      Reachable s → Reachable (busProcessPacket s pkt t).1
  | gc (s : BusState) (t : Nat) : Reachable s → Reachable (gcDevices s t).1
  | client (s : BusState) (sc : Nat) (role : String) :
      Reachable s → Reachable (newClient s sc role)
  | server (s : BusState) (sc : Nat) : Reachable s → Reachable (addServer s sc)

/-! ## Observation helpers and concrete fixtures -/

/-- Number of device-level `EVENT` emissions for device `did` in a trace. -/
def eventCount (did : Nat) (l : List Emit) : Nat :=
  (l.filter fun e => decide (e = Emit.event did)).length

/-- Fixture: a device with identifier 1 announcing one accelerometer service
(class 0x1f140409 at slot 1) whose stored event counter is 10. -/
def devW : DeviceT := ⟨1, [0, 0, 0, 0, 0x09, 0x04, 0x14, 0x1f], [], 0, some 10⟩

/-- Fixture: an event report for device 1, service index 1, event code 5,
with the given 7-bit event counter. -/
def evPktW (c : Nat) : JDPacket :=
  mkPacket 0 [1, 0, 0, 0, 0, 0, 0, 0] 1 (0x8000 ||| (c <<< 8) ||| 5) []

/-- Fixture: an announce from device 2 (restart counter 5, one
accelerometer service at slot 1). -/
def annW : JDPacket :=
  mkPacket 0 [2, 0, 0, 0, 0, 0, 0, 0] 0 0 [5, 8, 0, 0, 0x09, 0x04, 0x14, 0x1f]

/-- Fixture: a register-reading report from device 2 at service index 1. -/
def repW : JDPacket := mkPacket 0 [2, 0, 0, 0, 0, 0, 0, 0] 1 0x1101 [7, 7]

/-- Fixture: an outgoing register-get command payload for `send_cmd`. -/
def cmdW : JDPacket := mkPacket 0 [0, 0, 0, 0, 0, 0, 0, 0] 0 0x1101 []

/-- Fixture: device 2 as a table entry with `reset_count = 5` and client 0
attached at slot 1. -/
def devW2 : DeviceT := ⟨2, [5, 8, 0, 0, 0x09, 0x04, 0x14, 0x1f], [0], 100, none⟩

/-- Fixture: a bus knowing device 2 with one attached client. -/
def busW : BusState :=
  { selfId := 1,
    devices := [⟨1, [0, 0, 0, 0], [], 0, none⟩, devW2],
    clients := [⟨false, 0x1f140409, "acc", some 1, some 2, some 2⟩],
    unattached := [], servers := [0] }

/-- Fixture: a new announce from device 2 with restart counter 1 (below the
current 5). -/
def annRstW : JDPacket :=
  mkPacket 0 [2, 0, 0, 0, 0, 0, 0, 0] 0 0 [1, 8, 0, 0, 0x09, 0x04, 0x14, 0x1f]

/-- Fixture: the bus reached by constructing an accelerometer client and then
routing device 2's announce at t=100 (the client attaches at slot 1). -/
def busAttachW : BusState :=
  (busProcessPacket (newClient (initState 9 0) 0x1f140409 "acc") annW 100).1

/-- Fixture: the attached client entry expected at index 0 of `busAttachW`. -/
def clientAttachedW : ClientT :=
  ⟨false, 0x1f140409, "acc", some 1, some 2, none⟩

/-! ## Theorems -/

/-- Every emission of the client dispatch loop is a `clientHandle`. -/
theorem deliver_emit_shape (devId sc idx : Nat) :
    ∀ (cids : List Nat) (clients : List ClientT) (e : Emit),
      e ∈ (deliver clients devId sc idx cids).2 → ∃ cid, e = Emit.clientHandle cid := by
  intro cids
  induction cids with
  | nil => intro clients e h; simp [deliver] at h
  | cons cid rest ih =>
    intro clients e h
    cases hc : clients[cid]? with
    | none =>
      simp only [deliver, hc] at h
      exact ih _ _ h
    | some c =>
      simp only [deliver, hc] at h
      by_cases hcond : (c.broadcast = true ∧ c.service_class = sc ∨
          c.broadcast = false ∧ c.service_index = some idx)
      · rw [if_pos hcond] at h
        rcases List.mem_cons.mp h with h | h
        · exact ⟨cid, h⟩
        · exact ih _ _ h
      · rw [if_neg hcond] at h
        exact ih _ _ h

/-- The dispatch loop emits no device-level `EVENT`. -/
theorem eventCount_deliver (did devId sc idx : Nat) (cids : List Nat)
    (clients : List ClientT) :
    eventCount did (deliver clients devId sc idx cids).2 = 0 := by
  have h := deliver_emit_shape devId sc idx cids clients
  simp only [eventCount, List.length_eq_zero, List.filter_eq_nil_iff]
  intro e he
  rcases h e he with ⟨cid, rfl⟩
  simp

/-- `service_class_at` only reads `services`. -/
theorem service_class_at_last_seen (d : DeviceT) (t i : Nat) :
    DeviceT.service_class_at { d with last_seen := t } i = d.service_class_at i := rfl

/-- Evaluation of `process_packet` on an event packet with a usable service
class. -/
theorem process_packet_event_eq (d : DeviceT) (clients : List ClientT)
    (pkt : JDPacket) (t sc : Nat)
    (hsc : d.service_class_at pkt.service_index = some sc)
    (hsc0 : sc ≠ 0) (hscf : sc ≠ 0xffffffff) (hev : pkt.is_event = true) :
    d.process_packet clients pkt t =
      (if eventDecisionDrop d.event_counter ((pkt.service_command >>> 8) &&& 0x7f) then
        ⟨{ d with last_seen := t }, clients, [Emit.packetReceive d.device_id]⟩
      else
        ⟨{ d with
             last_seen := t
             event_counter := some ((pkt.service_command >>> 8) &&& 0x7f) },
         (deliver clients d.device_id sc pkt.service_index d.clients).1,
         Emit.packetReceive d.device_id :: Emit.event d.device_id ::
           Emit.busEvent ::
           (deliver clients d.device_id sc pkt.service_index d.clients).2⟩) := by
  have hne : ¬(sc = 0 ∨ sc = 0xffffffff) := by
    rintro (h | h) <;> [exact hsc0 h; exact hscf h]
  simp only [DeviceT.process_packet, service_class_at_last_seen, hsc, hev,
    if_neg hne, eq_self_iff_true, if_true]
  rfl

/-- Evaluation of `process_packet` on a non-event packet with a usable
service class. -/
theorem process_packet_report_eq (d : DeviceT) (clients : List ClientT)
    (pkt : JDPacket) (t sc : Nat)
    (hsc : d.service_class_at pkt.service_index = some sc)
    (hsc0 : sc ≠ 0) (hscf : sc ≠ 0xffffffff) (hev : pkt.is_event = false) :
    d.process_packet clients pkt t =
      ⟨{ d with last_seen := t },
       (deliver clients d.device_id sc pkt.service_index d.clients).1,
       Emit.packetReceive d.device_id ::
         (deliver clients d.device_id sc pkt.service_index d.clients).2⟩ := by
  have hne : ¬(sc = 0 ∨ sc = 0xffffffff) := by
    rintro (h | h) <;> [exact hsc0 h; exact hscf h]
  simp only [DeviceT.process_packet, service_class_at_last_seen, hsc, hev,
    if_neg hne, Bool.false_eq_true, if_false]
  rfl

/-- Evaluation of `process_packet` when the service class is unusable. -/
theorem process_packet_unusable_eq (d : DeviceT) (clients : List ClientT)
    (pkt : JDPacket) (t : Nat)
    (h : d.service_class_at pkt.service_index = none ∨
         d.service_class_at pkt.service_index = some 0 ∨
         d.service_class_at pkt.service_index = some 0xffffffff) :
    d.process_packet clients pkt t =
      ⟨{ d with last_seen := t }, clients, [Emit.packetReceive d.device_id]⟩ := by
  rcases h with h | h | h <;>
    simp [DeviceT.process_packet, service_class_at_last_seen, h]

/-- The drop decision, written as the window predicate of the spec. -/
theorem eventDecisionDrop_iff (ec0 : Option Nat) (c : Nat) :
    eventDecisionDrop ec0 c = true ↔
      (let expected : Int := (match ec0 with
        | some v => (v : Int)
        | none => (c : Int) - 1) + 1
       0 < ((c : Int) - expected) % 128 ∧
         ((expected - (c : Int)) % 128 < 60 ∨ ((c : Int) - expected) % 128 < 5)) := by
  simp [eventDecisionDrop]

/-- C1: for every device and inbound event packet with 7-bit counter `c`
that reaches the event stage (usable service class), with
`expected = (event_counter ?? (c - 1)) + 1`, `ahead = (c - expected) mod 128`
and `behind = (expected - c) mod 128`: the event is dropped (no `EVENT`
emitted on the device or the bus, `event_counter` unchanged) iff
`ahead > 0 ∧ (behind < 60 ∨ ahead < 5)`; otherwise it is accepted, `EVENT`
is emitted on the device and on the bus, and `event_counter` is set to `c`. -/
theorem event_counter_window (d : DeviceT) (clients : List ClientT)
    (pkt : JDPacket) (t sc : Nat)
    (hsc : d.service_class_at pkt.service_index = some sc)
    (hsc0 : sc ≠ 0) (hscf : sc ≠ 0xffffffff) (hev : pkt.is_event = true) :
    (let c := (pkt.service_command >>> 8) &&& 0x7f
     let expected : Int := (match d.event_counter with
       | some v => (v : Int)
       | none => (c : Int) - 1) + 1
     let ahead := ((c : Int) - expected) % 128
     let behind := (expected - (c : Int)) % 128
     let r := d.process_packet clients pkt t
     if 0 < ahead ∧ (behind < 60 ∨ ahead < 5) then
       Emit.event d.device_id ∉ r.emits ∧ Emit.busEvent ∉ r.emits ∧
         r.dev.event_counter = d.event_counter
     else
       Emit.event d.device_id ∈ r.emits ∧ Emit.busEvent ∈ r.emits ∧
         r.dev.event_counter = some c) := by
  rw [process_packet_event_eq d clients pkt t sc hsc hsc0 hscf hev]
  cases hdec : eventDecisionDrop d.event_counter ((pkt.service_command >>> 8) &&& 0x7f) with
  | true =>
    rw [if_pos ((eventDecisionDrop_iff _ _).mp hdec)]
    simp
  | false =>
    rw [if_neg (fun hP => by
          rw [(eventDecisionDrop_iff _ _).mpr hP] at hdec
          exact Bool.true_eq_false.mp hdec)]
    simp

/-- C1 witness: the concrete fixture (stored counter 10, event counter 11:
`ahead = 0`, accept). -/
theorem event_counter_window_witness :
    devW.service_class_at (evPktW 11).service_index = some 0x1f140409 ∧
    0x1f140409 ≠ 0 ∧ (0x1f140409 : Nat) ≠ 0xffffffff ∧
    (evPktW 11).is_event = true ∧
    (let c := ((evPktW 11).service_command >>> 8) &&& 0x7f
     let expected : Int := (match devW.event_counter with
       | some v => (v : Int)
       | none => (c : Int) - 1) + 1
     let ahead := ((c : Int) - expected) % 128
     let behind := (expected - (c : Int)) % 128
     let r := devW.process_packet [] (evPktW 11) 3
     if 0 < ahead ∧ (behind < 60 ∨ ahead < 5) then
       Emit.event devW.device_id ∉ r.emits ∧ Emit.busEvent ∉ r.emits ∧
         r.dev.event_counter = devW.event_counter
     else
       Emit.event devW.device_id ∈ r.emits ∧ Emit.busEvent ∈ r.emits ∧
         r.dev.event_counter = some c) :=
  ⟨by decide, by decide, by decide, by decide,
   event_counter_window devW [] (evPktW 11) 3 0x1f140409 (by decide)
     (by decide) (by decide) (by decide)⟩

/-- C10: a packet whose service index yields no usable service class on the
device (`None` out of range, class 0 — in particular the control service at
index 0 — or class 0xffffffff) only refreshes `last_seen` and emits
`PACKET_RECEIVE`: no event-counter processing, no client dispatch. -/
theorem unusable_service_class_frame (d : DeviceT) (clients : List ClientT)
    (pkt : JDPacket) (t : Nat)
    (h : d.service_class_at pkt.service_index = none ∨
         d.service_class_at pkt.service_index = some 0 ∨
         d.service_class_at pkt.service_index = some 0xffffffff) :
    d.process_packet clients pkt t =
      ⟨{ d with last_seen := t }, clients, [Emit.packetReceive d.device_id]⟩ :=
  process_packet_unusable_eq d clients pkt t h

/-- C10 witness: a control packet (service index 0) addressed to a device
with an attached client: the step only touches `last_seen` and emits
`PACKET_RECEIVE` — nothing reaches the client. -/
theorem unusable_service_class_frame_witness :
    (devW.service_class_at (mkPacket 0 [1, 0, 0, 0, 0, 0, 0, 0] 0 0 []).service_index = none ∨
     devW.service_class_at (mkPacket 0 [1, 0, 0, 0, 0, 0, 0, 0] 0 0 []).service_index = some 0 ∨
     devW.service_class_at (mkPacket 0 [1, 0, 0, 0, 0, 0, 0, 0] 0 0 []).service_index = some 0xffffffff) ∧
    devW.process_packet [] (mkPacket 0 [1, 0, 0, 0, 0, 0, 0, 0] 0 0 []) 9 =
      ⟨{ devW with last_seen := 9 }, [], [Emit.packetReceive devW.device_id]⟩ :=
  ⟨Or.inr (Or.inl (by decide)),
   unusable_service_class_frame devW [] (mkPacket 0 [1, 0, 0, 0, 0, 0, 0, 0] 0 0 []) 9
     (Or.inr (Or.inl (by decide)))⟩

theorem eventCount_nil (did : Nat) : eventCount did [] = 0 := rfl

theorem eventCount_append (did : Nat) (l1 l2 : List Emit) :
    eventCount did (l1 ++ l2) = eventCount did l1 + eventCount did l2 := by
  simp [eventCount, List.filter_append]

theorem eventCount_cons_event (did : Nat) (l : List Emit) :
    eventCount did (Emit.event did :: l) = eventCount did l + 1 := by
  simp [eventCount, List.filter_cons]

theorem eventCount_cons_ne (did : Nat) (e : Emit) (l : List Emit)
    (h : e ≠ Emit.event did) : eventCount did (e :: l) = eventCount did l := by
  simp [eventCount, List.filter_cons, h]

/-- An event carrying the same counter as the stored one is always dropped
(`ahead = 127`, `behind = 1`). -/
theorem eventDecisionDrop_repeat (c : Nat) : eventDecisionDrop (some c) c = true := by
  simp only [eventDecisionDrop, decide_eq_true_eq]
  have h1 : ((c : Int) - ((c : Int) + 1)) = -1 := by ring
  have h2 : (((c : Int) + 1) - (c : Int)) = 1 := by ring
  rw [h1, h2]
  exact ⟨by decide, Or.inl (by decide)⟩

/-- `service_class_at` after a `last_seen`/`event_counter` update. -/
theorem service_class_at_accept (d : DeviceT) (t : Nat) (x : Option Nat) (i : Nat) :
    DeviceT.service_class_at { d with last_seen := t, event_counter := x } i =
      d.service_class_at i := rfl

/-- The dispatch loop emits no device-level `EVENT` (membership form). -/
theorem event_not_mem_deliver (did devId sc idx : Nat) (cids : List Nat)
    (clients : List ClientT) :
    Emit.event did ∉ (deliver clients devId sc idx cids).2 := by
  intro h
  rcases deliver_emit_shape devId sc idx cids clients _ h with ⟨cid, hcid⟩
  simp at hcid

/-- C8 counterexample to the claim as stated: with stored event counter 10,
the event packet with counter 12 (`ahead = 1 < 5`) is dropped on its first
delivery already, so delivering it twice in succession yields zero `EVENT`
emissions, not exactly one. -/
theorem event_idempotence_counterexample :
    ¬ eventCount devW.device_id
        ((devW.process_packet [] (evPktW 12) 0).emits ++
          ((devW.process_packet [] (evPktW 12) 0).dev.process_packet
            (devW.process_packet [] (evPktW 12) 0).clients (evPktW 12) 0).emits) = 1 := by
  decide

/-- C8 (amended): delivering the same event packet twice in succession
yields at most one `EVENT` emission — the second delivery never emits (a
dropped first delivery leaves the state unchanged, and after an acceptance
the repeated counter falls in the drop window with `ahead = 127`,
`behind = 1`); the total is exactly one iff the first delivery was
accepted. -/
theorem event_idempotence_amended (d : DeviceT) (clients : List ClientT)
    (pkt : JDPacket) (t t2 : Nat) :
    eventCount d.device_id
        ((d.process_packet clients pkt t).dev.process_packet
          (d.process_packet clients pkt t).clients pkt t2).emits = 0 ∧
    eventCount d.device_id
        ((d.process_packet clients pkt t).emits ++
          ((d.process_packet clients pkt t).dev.process_packet
            (d.process_packet clients pkt t).clients pkt t2).emits) =
      (if Emit.event d.device_id ∈ (d.process_packet clients pkt t).emits then 1
       else 0) := by
  rcases hsc : d.service_class_at pkt.service_index with _ | sc
  · rw [process_packet_unusable_eq d clients pkt t (Or.inl hsc)]
    dsimp only
    rw [process_packet_unusable_eq _ clients pkt t2
      (Or.inl (by rw [service_class_at_last_seen]; exact hsc))]
    dsimp only
    constructor <;> simp [eventCount]
  · by_cases hun : sc = 0 ∨ sc = 0xffffffff
    · have hu : d.service_class_at pkt.service_index = none ∨
          d.service_class_at pkt.service_index = some 0 ∨
          d.service_class_at pkt.service_index = some 0xffffffff := by
        rcases hun with rfl | rfl
        · exact Or.inr (Or.inl hsc)
        · exact Or.inr (Or.inr hsc)
      have hu2 : DeviceT.service_class_at { d with last_seen := t } pkt.service_index = none ∨
          DeviceT.service_class_at { d with last_seen := t } pkt.service_index = some 0 ∨
          DeviceT.service_class_at { d with last_seen := t } pkt.service_index = some 0xffffffff := by
        rw [service_class_at_last_seen]; exact hu
      rw [process_packet_unusable_eq d clients pkt t hu]
      dsimp only
      rw [process_packet_unusable_eq _ clients pkt t2 hu2]
      dsimp only
      constructor <;> simp [eventCount]
    · rw [not_or] at hun
      obtain ⟨hsc0, hscf⟩ := hun
      cases hev : pkt.is_event with
      | false =>
        rw [process_packet_report_eq d clients pkt t sc hsc hsc0 hscf hev]
        dsimp only
        rw [process_packet_report_eq _ _ pkt t2 sc
          (by rw [service_class_at_last_seen]; exact hsc) hsc0 hscf hev]
        dsimp only
        constructor
        · rw [eventCount_cons_ne _ _ _ (by simp), eventCount_deliver]
        · rw [eventCount_append,
            eventCount_cons_ne _ _ _ (by simp), eventCount_deliver,
            eventCount_cons_ne _ _ _ (by simp), eventCount_deliver,
            if_neg (by
              intro hmem
              rcases List.mem_cons.mp hmem with h | h
              · simp at h
              · exact event_not_mem_deliver _ _ _ _ _ _ h)]
      | true =>
        rw [process_packet_event_eq d clients pkt t sc hsc hsc0 hscf hev]
        cases hdec : eventDecisionDrop d.event_counter
            ((pkt.service_command >>> 8) &&& 0x7f) with
        | true =>
          rw [if_pos rfl]
          dsimp only
          rw [process_packet_event_eq _ clients pkt t2 sc
            (by rw [service_class_at_last_seen]; exact hsc) hsc0 hscf hev]
          dsimp only
          rw [if_pos hdec]
          dsimp only
          constructor <;> simp [eventCount]
        | false =>
          rw [if_neg (by simp)]
          dsimp only
          rw [process_packet_event_eq _ _ pkt t2 sc
            (by rw [service_class_at_accept]; exact hsc) hsc0 hscf hev]
          dsimp only
          rw [if_pos (eventDecisionDrop_repeat _)]
          dsimp only
          constructor
          · simp [eventCount]
          · rw [eventCount_append,
              eventCount_cons_ne _ _ _ (by simp),
              eventCount_cons_event,
              eventCount_cons_ne _ _ _ (by simp),
              eventCount_deliver,
              eventCount_cons_ne _ _ _ (by simp), eventCount_nil,
              if_pos (by simp)]

/-- C2: the code evaluated at the failing input.  `handle_packet` on a
matching register report stores the data and emits `CHANGE`, but never
touches `_refreshed_at` (it is written only in `__init__`, to 0, and
`handle_packet` does not even read a clock), so `current(500)` at time
1001 ms — right after the report — returns `none` where the claim promises
the reported data. -/
theorem register_cache_timestamp_bug :
    ((⟨0x101, none, 0⟩ : RawRegisterClient).handle_packet
        (mkPacket 0 [1, 0, 0, 0, 0, 0, 0, 0] 1 0x1101 [42])).2 =
      [Emit.regChange (some [42])] ∧
    ((⟨0x101, none, 0⟩ : RawRegisterClient).handle_packet
        (mkPacket 0 [1, 0, 0, 0, 0, 0, 0, 0] 1 0x1101 [42])).1.data = some [42] ∧
    ((⟨0x101, none, 0⟩ : RawRegisterClient).handle_packet
        (mkPacket 0 [1, 0, 0, 0, 0, 0, 0, 0] 1 0x1101 [42])).1.refreshed_at = 0 ∧
    ((⟨0x101, none, 0⟩ : RawRegisterClient).handle_packet
        (mkPacket 0 [1, 0, 0, 0, 0, 0, 0, 0] 1 0x1101 [42])).1.current 500 1001 =
      none := by
  decide

/-- C6: a register query with no inbound report sends exactly three
register-get frames, at `t0`, `t0 + 20` ms and `t0 + 70` ms; at `t0 + 170`
ms the entry's data is cleared, `CHANGE` is emitted with `none`, and the
resumed query fails with `REG_TIMEOUT`. -/
theorem register_query_timeout (code t0 ra : Nat) :
    (queryNoReport ⟨code, none, ra⟩ 500 t0).1 = Except.error RegError.regTimeout ∧
    (queryNoReport ⟨code, none, ra⟩ 500 t0).2.sends = [t0, t0 + 20, t0 + 70] ∧
    (queryNoReport ⟨code, none, ra⟩ 500 t0).2.emits = [(t0 + 170, none)] ∧
    (queryNoReport ⟨code, none, ra⟩ 500 t0).2.reg.data = none := by
  have h20 : t0 + 20 + 50 = t0 + 70 := by omega
  have h170 : t0 + 20 + 50 + 100 = t0 + 170 := by omega
  simp [queryNoReport, RawRegisterClient.current, regRun, regRefreshStart,
    regRunCb, h20, h170]

/-- C3 (modelled from the spec; the executable source drops CRC-ACK packets
with the `_got_ack` call commented out): on a packet with
`service_index == 0x3f`, every pending awaiter whose recorded CRC equals the
packet's `service_command` and whose destination equals the packet's device
identifier is marked acknowledged (`next_retry = 0`), is among the notified
awaiters, and its resumed sender reports success. -/
theorem crc_ack_notifies (awaiters : List AckAwaiter) (pkt : JDPacket)
    (a : AckAwaiter) (hidx : pkt.service_index = 0x3f) (ha : a ∈ awaiters)
    (hcrc : a.crc = pkt.service_command)
    (hsrc : a.srcId = pkt.device_identifier) (_hpend : 0 < a.nextRetry) :
    { a with nextRetry := 0 } ∈ (busAckDispatch awaiters pkt).2 ∧
    ackSenderSuccess { a with nextRetry := 0 } = true := by
  refine ⟨?_, rfl⟩
  have hb : busAckDispatch awaiters pkt = gotAck awaiters pkt := by
    rw [busAckDispatch, if_pos hidx]
  rw [hb]
  simp only [gotAck]
  refine List.mem_filter.mpr ⟨?_, ?_⟩
  · exact List.mem_map.mpr ⟨a, ha, by rw [if_pos ⟨hcrc, hsrc⟩]⟩
  · simp [hcrc, hsrc]

/-- C3 witness: one pending awaiter `(crc 0x1234, destination 5)` and the
matching CRC-ACK packet. -/
theorem crc_ack_notifies_witness :
    (mkPacket 0 [5, 0, 0, 0, 0, 0, 0, 0] 0x3f 0x1234 []).service_index = 0x3f ∧
    (⟨0x1234, 5, 1, 40⟩ : AckAwaiter) ∈ [(⟨0x1234, 5, 1, 40⟩ : AckAwaiter)] ∧
    (⟨0x1234, 5, 1, 40⟩ : AckAwaiter).crc =
      (mkPacket 0 [5, 0, 0, 0, 0, 0, 0, 0] 0x3f 0x1234 []).service_command ∧
    (⟨0x1234, 5, 1, 40⟩ : AckAwaiter).srcId =
      (mkPacket 0 [5, 0, 0, 0, 0, 0, 0, 0] 0x3f 0x1234 []).device_identifier ∧
    (0 : Int) < (⟨0x1234, 5, 1, 40⟩ : AckAwaiter).nextRetry ∧
    ({ (⟨0x1234, 5, 1, 40⟩ : AckAwaiter) with nextRetry := 0 } ∈
      (busAckDispatch [⟨0x1234, 5, 1, 40⟩]
        (mkPacket 0 [5, 0, 0, 0, 0, 0, 0, 0] 0x3f 0x1234 [])).2 ∧
     ackSenderSuccess { (⟨0x1234, 5, 1, 40⟩ : AckAwaiter) with nextRetry := 0 } = true) :=
  ⟨by decide, by decide, by decide, by decide, by decide,
   crc_ack_notifies [⟨0x1234, 5, 1, 40⟩]
     (mkPacket 0 [5, 0, 0, 0, 0, 0, 0, 0] 0x3f 0x1234 []) ⟨0x1234, 5, 1, 40⟩
     (by decide) (by decide) (by decide) (by decide) (by decide)⟩

/-- C5: the code evaluated at the failing input.  An inbound command
addressed to the own device with `service_index = 5` while only two servers
are registered (control at 0, one more at 1): `self.servers[5]` raises
`IndexError` instead of completing the route as a drop. -/
theorem unknown_service_index_error :
    (mkPacket 1 [2, 0, 0, 0, 0, 0, 0, 0] 5 0x80 []).is_command = true ∧
    (mkPacket 1 [2, 0, 0, 0, 0, 0, 0, 0] 5 0x80 []).service_index = 5 ∧
    List.length [0, 0x1f140409] ≤ 5 ∧
    busHandleOwnCommand [0, 0x1f140409]
        (mkPacket 1 [2, 0, 0, 0, 0, 0, 0, 0] 5 0x80 []) =
      Except.error PyError.indexError := by
  decide

/-- C9 counterexample to the claim as stated: the unattached state with
`device = none` and `service_index = none` is reachable with
`current_device` still set (attach, deliver one report, then let the device
be garbage-collected — `_detach` never clears `current_device`); `send_cmd`
on that client raises `ValueError` from the `service_index` setter instead
of being silently dropped. -/
theorem send_cmd_unattached_counterexample :
    Reachable (gcDevices ((busProcessPacket ((busProcessPacket
        (newClient (initState 1 0) 0x1f140409 "acc") annW 100).1) repW 200).1)
        3000).1 ∧
    (∃ c, (gcDevices ((busProcessPacket ((busProcessPacket
        (newClient (initState 1 0) 0x1f140409 "acc") annW 100).1) repW 200).1)
        3000).1.clients[0]? = some c ∧
      c.device = none ∧ c.service_index = none ∧
      c.send_cmd cmdW = Except.error PyError.valueError) := by
  constructor
  · exact Reachable.gc _ _ (Reachable.packet _ _ _ (Reachable.packet _ _ _
      (Reachable.client _ _ _ (Reachable.init 1 0))))
  · exact ⟨⟨false, 0x1f140409, "acc", none, none, some 2⟩,
      by decide, by decide, by decide, by decide⟩

/-- C9 (amended): `send_cmd` is silently dropped — nothing is submitted to
the bus send path and no error is raised — exactly when the client's
`current_device` is `none` (every never-attached client in particular); an
unattached client that handled a packet while attached keeps
`current_device`, and `send_cmd` then raises `ValueError` from the
`service_index` setter. -/
theorem send_cmd_unattached_amended (c : ClientT) (pkt : JDPacket) :
    (c.current_device = none → c.send_cmd pkt = Except.ok none) ∧
    (c.current_device ≠ none → c.service_index = none →
      c.send_cmd pkt = Except.error PyError.valueError) := by
  constructor
  · intro h
    simp [ClientT.send_cmd, h]
  · intro h hidx
    rcases hcur : c.current_device with _ | d
    · exact absurd hcur h
    · simp [ClientT.send_cmd, hcur, hidx]

/-- C9 amended witness: a never-attached client is dropped silently; a
detached client with a stale `current_device` raises. -/
theorem send_cmd_unattached_amended_witness :
    ((⟨false, 9, "", none, none, none⟩ : ClientT).send_cmd cmdW =
      Except.ok none) ∧
    ((⟨false, 9, "", none, none, some 2⟩ : ClientT).send_cmd cmdW =
      Except.error PyError.valueError) :=
  ⟨(send_cmd_unattached_amended ⟨false, 9, "", none, none, none⟩ cmdW).1 rfl,
   (send_cmd_unattached_amended ⟨false, 9, "", none, none, some 2⟩ cmdW).2
     (by decide) rfl⟩

theorem detachClient_length (clients : List ClientT) (un : List Nat) (cid : Nat) :
    (detachClient clients un cid).1.length = clients.length := by
  rcases h : clients[cid]? with _ | c
  · simp [detachClient, h]
  · by_cases hb : c.broadcast = false <;> simp [detachClient, h, hb]

theorem destroyClients_length (cids : List Nat) :
    ∀ (clients : List ClientT) (un : List Nat),
      (destroyClients clients un cids).1.length = clients.length := by
  induction cids with
  | nil => intro clients un; rfl
  | cons cid rest ih =>
    intro clients un
    simp only [destroyClients]
    rw [ih, detachClient_length]

theorem detachClient_emits (clients : List ClientT) (un : List Nat) (cid : Nat)
    (h : cid < clients.length) :
    (detachClient clients un cid).2.2 = [Emit.disconnected cid] := by
  have hc : clients[cid]? = some clients[cid] := List.getElem?_eq_getElem h
  by_cases hb : clients[cid].broadcast = false <;> simp [detachClient, hc, hb]

theorem destroyClients_disconnected (cids : List Nat) :
    ∀ (clients : List ClientT) (un : List Nat),
      (∀ cid ∈ cids, cid < clients.length) →
      ∀ cid ∈ cids, Emit.disconnected cid ∈ (destroyClients clients un cids).2.2 := by
  induction cids with
  | nil => intro clients un _ cid hc; simp at hc
  | cons c0 rest ih =>
    intro clients un hlen cid hc
    simp only [destroyClients, List.mem_append]
    rcases List.mem_cons.mp hc with rfl | hc
    · left
      rw [detachClient_emits clients un cid (hlen cid (List.mem_cons_self _ _))]
      simp
    · right
      refine ih _ _ ?_ cid hc
      intro x hx
      rw [detachClient_length]
      exact hlen x (List.mem_cons_of_mem _ hx)

theorem updDev_find (l : List DeviceT) (d : DeviceT) (did : Nat)
    (hd : d.device_id = did) (h : ∃ x ∈ l, x.device_id = did) :
    (updDev l d).find? (fun x => x.device_id == did) = some d := by
  induction l with
  | nil => rcases h with ⟨x, hx, _⟩; simp at hx
  | cons y rest ih =>
    simp only [updDev, List.map_cons]
    by_cases hy : y.device_id = d.device_id
    · rw [if_pos hy, List.find?_cons_of_pos _ (by simp [hd])]
    · rw [if_neg hy]
      rcases h with ⟨x, hx, hxid⟩
      rcases List.mem_cons.mp hx with rfl | hx
    -- y itself cannot carry `did` since `y.device_id ≠ d.device_id = did`
      · exact absurd (hxid.trans hd.symm) hy
      · rw [List.find?_cons_of_neg _ (by
          simp only [beq_iff_eq]
          exact fun hh => hy (hh.trans hd.symm))]
        exact ih ⟨x, hx, hxid⟩

/-- `busReattach` on a device with an empty client list only rewrites the
device's `last_seen` and `clients` inside the device table. -/
theorem busReattach_devices_of_nil (s : BusState) (dev : DeviceT) (t : Nat)
    (hc : dev.clients = []) :
    ∃ cl, (busReattach s dev t).1.devices =
      updDev s.devices { dev with last_seen := t, clients := cl } := by
  simp only [busReattach, hc, reattachScan]
  split
  · exact ⟨[], rfl⟩
  · exact ⟨_, rfl⟩

/-- `devProcessById` when the routed packet hits an unusable service class:
only the device's `last_seen` moves. -/
theorem devProcessById_unusable (s : BusState) (did : Nat) (pkt : JDPacket)
    (t : Nat) (d : DeviceT)
    (hfind : s.devices.find? (fun x => x.device_id == did) = some d)
    (hun : d.service_class_at pkt.service_index = none ∨
           d.service_class_at pkt.service_index = some 0 ∨
           d.service_class_at pkt.service_index = some 0xffffffff) :
    (devProcessById s did pkt t).1.devices =
      updDev s.devices { d with last_seen := t } ∧
    (devProcessById s did pkt t).1.clients = s.clients := by
  simp only [devProcessById, hfind]
  rw [process_packet_unusable_eq _ _ _ _ hun]
  exact ⟨rfl, rfl⟩

/-- C7: an announce from a known device whose restart counter (low four
bits of the first payload byte) is strictly below the device's current
`reset_count`: the old device is destroyed first — every attached client is
detached (a `DISCONNECTED` for each appears among the emissions preceding
`RESTART`) and `RESTART` is emitted — and only then is a fresh `Device`
with the same identifier created (services from the packet, no event
counter) and `DEVICE_CONNECT` emitted right after `RESTART`. -/
theorem restart_detection (s : BusState) (pkt : JDPacket) (t : Nat)
    (dev : DeviceT)
    (hmc : pkt.multicommand_class = none)
    (hcmd : pkt.is_command = false)
    (hidx : pkt.service_index = 0)
    (hsvc : pkt.service_command = 0)
    (hfind : s.devices.find? (fun d => d.device_id == pkt.device_identifier) =
      some dev)
    (hlen : ¬(dev.services.length < 2 ∨ pkt.data = []))
    (hrst : pkt.data.getD 0 0 &&& 0xf < dev.reset_count)
    (hcl : ∀ cid ∈ dev.clients, cid < s.clients.length) :
    (∃ dis rest,
      (busProcessPacket s pkt t).2 =
        Emit.packetProcess :: dis ++
          Emit.restart :: Emit.deviceConnect pkt.device_identifier :: rest ∧
      ∀ cid ∈ dev.clients, Emit.disconnected cid ∈ dis) ∧
    (∃ d', ((busProcessPacket s pkt t).1.devices.find?
        (fun x => x.device_id == pkt.device_identifier)) = some d' ∧
      d'.services = pkt.data ∧ d'.event_counter = none) := by
  have hb : busProcessPacket s pkt t =
      (let s1 := { s with
        devices := s.devices.eraseP (fun d => d.device_id == dev.device_id) }
       let r := destroyClients s1.clients s1.unattached dev.clients
       let newDev : DeviceT := ⟨pkt.device_identifier, pkt.data, [], t, none⟩
       let s2 := { s1 with
         clients := r.1
         unattached := r.2.1
         devices := s1.devices ++ [newDev] }
       let r2 := busReattach s2 newDev t
       let r3 := devProcessById r2.1 pkt.device_identifier pkt t
       (r3.1, [Emit.packetProcess] ++ r.2.2 ++
         [Emit.restart, Emit.deviceConnect pkt.device_identifier] ++
         r2.2 ++ r3.2)) := by
    simp only [busProcessPacket, hmc, hcmd, hidx, hsvc, hfind, if_neg hlen,
      if_pos hrst, ne_eq, not_true_eq_false, Bool.false_eq_true, and_false,
      if_false, ite_self]
    simp
  rw [hb]
  set E := s.devices.eraseP (fun d => d.device_id == dev.device_id) with hE
  set newDev : DeviceT := ⟨pkt.device_identifier, pkt.data, [], t, none⟩ with hN
  set r := destroyClients s.clients s.unattached dev.clients with hr
  set S2 : BusState := { s with
    clients := r.1
    unattached := r.2.1
    devices := E ++ [newDev] } with hS2
  constructor
  · exact ⟨r.2.2,
      (busReattach S2 newDev t).2 ++
        (devProcessById (busReattach S2 newDev t).1 pkt.device_identifier pkt t).2,
      by simp,
      destroyClients_disconnected dev.clients s.clients s.unattached hcl⟩
  · obtain ⟨cl, hcl2⟩ := busReattach_devices_of_nil S2 newDev t rfl
    have hfind2 : (busReattach S2 newDev t).1.devices.find?
        (fun x => x.device_id == pkt.device_identifier) =
        some { newDev with last_seen := t, clients := cl } := by
      rw [hcl2]
      exact updDev_find _ _ _ rfl ⟨newDev, by simp [hS2], rfl⟩
    have hun2 : DeviceT.service_class_at
        { newDev with last_seen := t, clients := cl } pkt.service_index =
        some 0 := by
      rw [hidx]; rfl
    obtain ⟨hdev3, -⟩ := devProcessById_unusable (busReattach S2 newDev t).1
      pkt.device_identifier pkt t _ hfind2 (Or.inr (Or.inl hun2))
    refine ⟨{ newDev with last_seen := t, clients := cl }, ?_, rfl, rfl⟩
    show (devProcessById (busReattach S2 newDev t).1
      pkt.device_identifier pkt t).1.devices.find?
      (fun x => x.device_id == pkt.device_identifier) = _
    rw [hdev3]
    exact updDev_find _ _ _ rfl
      ⟨_, List.mem_of_find?_eq_some hfind2, rfl⟩

/-- C7 witness: device 2 (reset counter 5, one attached client) receives an
announce with restart counter 1. -/
theorem restart_detection_witness :
    annRstW.multicommand_class = none ∧
    annRstW.is_command = false ∧
    annRstW.service_index = 0 ∧
    annRstW.service_command = 0 ∧
    busW.devices.find? (fun d => d.device_id == annRstW.device_identifier) =
      some devW2 ∧
    ¬(devW2.services.length < 2 ∨ annRstW.data = []) ∧
    annRstW.data.getD 0 0 &&& 0xf < devW2.reset_count ∧
    (∀ cid ∈ devW2.clients, cid < busW.clients.length) ∧
    ((∃ dis rest,
        (busProcessPacket busW annRstW 300).2 =
          Emit.packetProcess :: dis ++
            Emit.restart :: Emit.deviceConnect annRstW.device_identifier :: rest ∧
        ∀ cid ∈ devW2.clients, Emit.disconnected cid ∈ dis) ∧
     (∃ d', ((busProcessPacket busW annRstW 300).1.devices.find?
          (fun x => x.device_id == annRstW.device_identifier)) = some d' ∧
        d'.services = annRstW.data ∧ d'.event_counter = none)) :=
  ⟨by decide, by decide, by decide, by decide, by decide, by decide, by decide,
   by decide,
   restart_detection busW annRstW 300 devW2 (by decide) (by decide) (by decide)
     (by decide) (by decide) (by decide) (by decide) (by decide)⟩

/-! ### Table-manipulation lemmas for the attachment invariant -/

theorem getq_set_self {α : Type} (l : List α) (i : Nat) (a : α)
    (h : i < l.length) : (l.set i a)[i]? = some a :=
  List.getElem?_set_eq_of_lt a h

theorem getq_set_other {α : Type} (l : List α) (i j : Nat) (a : α)
    (h : i ≠ j) : (l.set i a)[j]? = l[j]? :=
  List.getElem?_set_ne h

theorem detachClient_frame (clients : List ClientT) (un : List Nat)
    (cid j : Nat) (h : j ≠ cid) :
    (detachClient clients un cid).1[j]? = clients[j]? := by
  rcases hc : clients[cid]? with _ | c
  · simp [detachClient, hc]
  · by_cases hb : c.broadcast = false <;>
      simp [detachClient, hc, hb, getq_set_other _ _ _ _ (Ne.symm h)]

theorem detachClient_self (clients : List ClientT) (un : List Nat) (cid : Nat)
    (c : ClientT) (hc : clients[cid]? = some c) (hb : c.broadcast = false) :
    (detachClient clients un cid).1[cid]? =
      some { c with service_index := none, device := none } ∧
    (detachClient clients un cid).2.1 = un ++ [cid] := by
  have hlt : cid < clients.length := by
    by_contra hge
    rw [List.getElem?_eq_none (Nat.le_of_not_lt hge)] at hc
    cases hc
  constructor
  · simp [detachClient, hc, hb, getq_set_self _ _ _ hlt]
  · simp [detachClient, hc, hb]

theorem attachClient_spec (clients : List ClientT) (un : List Nat) (cid : Nat)
    (devId idx : Nat) (c : ClientT) (hc : clients[cid]? = some c)
    (hb : c.broadcast = false) :
    (attachClient clients un cid devId idx).1[cid]? =
      some { c with device := some devId, service_index := some idx } ∧
    (∀ j, j ≠ cid →
      (attachClient clients un cid devId idx).1[j]? = clients[j]?) ∧
    (attachClient clients un cid devId idx).2.1 = un.erase cid ∧
    (attachClient clients un cid devId idx).2.2.2 = true ∧
    (attachClient clients un cid devId idx).1.length = clients.length := by
  have hlt : cid < clients.length := by
    by_contra hge
    rw [List.getElem?_eq_none (Nat.le_of_not_lt hge)] at hc
    cases hc
  refine ⟨?_, ?_, ?_, ?_, ?_⟩
  · simp [attachClient, hc, hb, getq_set_self _ _ _ hlt]
  · intro j hj
    simp [attachClient, hc, hb, getq_set_other _ _ _ _ (Ne.symm hj)]
  · simp [attachClient, hc, hb]
  · simp [attachClient, hc, hb]
  · simp [attachClient, hc, hb]

theorem destroyClients_spec (cids : List Nat) :
    ∀ (clients : List ClientT) (un : List Nat),
    (∀ cid ∈ cids, ∃ c, clients[cid]? = some c ∧ c.broadcast = false) →
    cids.Nodup →
    (∀ j, j ∉ cids → (destroyClients clients un cids).1[j]? = clients[j]?) ∧
    (∀ cid ∈ cids, ∃ c, clients[cid]? = some c ∧
      (destroyClients clients un cids).1[cid]? =
        some { c with service_index := none, device := none }) ∧
    (destroyClients clients un cids).2.1 = un ++ cids ∧
    (destroyClients clients un cids).1.length = clients.length := by
  induction cids with
  | nil =>
    intro clients un _ _
    exact ⟨fun j _ => rfl, fun cid h => absurd h (List.not_mem_nil cid),
      by simp [destroyClients], rfl⟩
  | cons c0 rest ih =>
    intro clients un hval hnd
    obtain ⟨c, hc, hb⟩ := hval c0 (List.mem_cons_self _ _)
    have hnotin : c0 ∉ rest := (List.nodup_cons.mp hnd).1
    have hndr : rest.Nodup := (List.nodup_cons.mp hnd).2
    obtain ⟨hself, hun⟩ := detachClient_self clients un c0 c hc hb
    have hvalr : ∀ cid ∈ rest, ∃ c2,
        (detachClient clients un c0).1[cid]? = some c2 ∧ c2.broadcast = false := by
      intro cid hcid
      obtain ⟨c2, hc2, hb2⟩ := hval cid (List.mem_cons_of_mem _ hcid)
      exact ⟨c2, by
        rw [detachClient_frame clients un c0 cid
          (fun hh => hnotin (hh ▸ hcid))]; exact hc2, hb2⟩
    obtain ⟨ihf, ihd, ihu, ihl⟩ := ih (detachClient clients un c0).1
      (detachClient clients un c0).2.1 hvalr hndr
    refine ⟨?_, ?_, ?_, ?_⟩
    · intro j hj
      have hj0 : j ≠ c0 := fun hh => hj (hh ▸ List.mem_cons_self _ _)
      have hjr : j ∉ rest := fun hh => hj (List.mem_cons_of_mem _ hh)
      simp only [destroyClients]
      rw [ihf j hjr, detachClient_frame clients un c0 j hj0]
    · intro cid hcid
      rcases List.mem_cons.mp hcid with rfl | hcid
      · refine ⟨c, hc, ?_⟩
        simp only [destroyClients]
        rw [ihf cid hnotin, hself]
      · obtain ⟨c2, hc2, hres⟩ := ihd cid hcid
        refine ⟨c2, ?_, ?_⟩
        · rw [detachClient_frame clients un c0 cid
            (fun hh => hnotin (hh ▸ hcid))] at hc2
          exact hc2
        · simp only [destroyClients]
          exact hres
    · simp only [destroyClients]
      rw [ihu, hun]
      simp
    · simp only [destroyClients]
      rw [ihl, detachClient_length]

theorem reattachScan_spec (dev : DeviceT) (cids : List Nat) :
    ∀ (clients : List ClientT) (un : List Nat),
    (∀ cid ∈ cids, ∃ c, clients[cid]? = some c ∧ c.broadcast = false) →
    cids.Nodup →
    (reattachScan dev clients un cids).1.length = clients.length ∧
    (∀ j, j ∉ cids → (reattachScan dev clients un cids).1[j]? = clients[j]?) ∧
    (∀ cid ∈ cids, cid ∈ (reattachScan dev clients un cids).2.2.1 ∨
      cid ∈ (reattachScan dev clients un cids).2.1) ∧
    (∀ cid ∈ (reattachScan dev clients un cids).2.2.1, cid ∈ cids ∧
      (reattachScan dev clients un cids).1[cid]? = clients[cid]? ∧
      ∃ c i, clients[cid]? = some c ∧ c.service_index = some i ∧
        dev.service_class_at i = some c.service_class) ∧
    (reattachScan dev clients un cids).2.2.1.Nodup ∧
    (∃ det, (reattachScan dev clients un cids).2.1 = un ++ det ∧ det.Nodup ∧
      ∀ cid ∈ det, cid ∈ cids ∧ ∃ c, clients[cid]? = some c ∧
        (reattachScan dev clients un cids).1[cid]? =
          some { c with service_index := none, device := none }) := by
  induction cids with
  | nil =>
    intro clients un _ _
    refine ⟨rfl, fun j _ => rfl, fun cid h => absurd h (List.not_mem_nil cid),
      fun cid h => absurd h (List.not_mem_nil cid), List.nodup_nil,
      ⟨[], by simp [reattachScan], List.nodup_nil,
        fun cid h => absurd h (List.not_mem_nil cid)⟩⟩
  | cons c0 rest ih =>
    intro clients un hval hnd
    obtain ⟨c, hc, hb⟩ := hval c0 (List.mem_cons_self _ _)
    have hnotin : c0 ∉ rest := (List.nodup_cons.mp hnd).1
    have hndr : rest.Nodup := (List.nodup_cons.mp hnd).2
    have hbne : ¬c.broadcast = true := by simp [hb]
    by_cases hk : (match c.service_index with
        | some i => dev.service_class_at i
        | none => none) = some c.service_class
    · -- retained
      have hexp : reattachScan dev clients un (c0 :: rest) =
          ((reattachScan dev clients un rest).1,
           (reattachScan dev clients un rest).2.1,
           c0 :: (reattachScan dev clients un rest).2.2.1,
           c.service_index.getD 0 :: (reattachScan dev clients un rest).2.2.2.1,
           (reattachScan dev clients un rest).2.2.2.2) := by
        simp [reattachScan, hc, hbne, hk]
      obtain ⟨ihl, ihf, ihs, ihk, ihknd, det, ihu, ihdnd, ihdet⟩ :=
        ih clients un (fun cid hcid => hval cid (List.mem_cons_of_mem _ hcid)) hndr
      obtain ⟨i, hi, hsci⟩ : ∃ i, c.service_index = some i ∧
          dev.service_class_at i = some c.service_class := by
        rcases hsi : c.service_index with _ | i
        · rw [hsi] at hk; cases hk
        · rw [hsi] at hk; exact ⟨i, rfl, hk⟩
      rw [hexp]
      refine ⟨ihl, ?_, ?_, ?_, ?_, det, ihu, ihdnd, ?_⟩
      · intro j hj
        exact ihf j (fun hh => hj (List.mem_cons_of_mem _ hh))
      · intro cid hcid
        rcases List.mem_cons.mp hcid with rfl | hcid
        · exact Or.inl (List.mem_cons_self _ _)
        · rcases ihs cid hcid with h | h
          · exact Or.inl (List.mem_cons_of_mem _ h)
          · exact Or.inr h
      · intro cid hcid
        rcases List.mem_cons.mp hcid with rfl | hcid
        · exact ⟨List.mem_cons_self _ _, ihf cid hnotin, c, i, hc, hi, hsci⟩
        · obtain ⟨h1, h2, h3⟩ := ihk cid hcid
          exact ⟨List.mem_cons_of_mem _ h1, h2, h3⟩
      · refine List.nodup_cons.mpr ⟨?_, ihknd⟩
        intro hmem
        exact hnotin (ihk c0 hmem).1
      · intro cid hcid
        obtain ⟨h1, h2⟩ := ihdet cid hcid
        exact ⟨List.mem_cons_of_mem _ h1, h2⟩
    · -- detached
      have hexp : reattachScan dev clients un (c0 :: rest) =
          ((reattachScan dev (detachClient clients un c0).1
              (detachClient clients un c0).2.1 rest).1,
           (reattachScan dev (detachClient clients un c0).1
              (detachClient clients un c0).2.1 rest).2.1,
           (reattachScan dev (detachClient clients un c0).1
              (detachClient clients un c0).2.1 rest).2.2.1,
           (reattachScan dev (detachClient clients un c0).1
              (detachClient clients un c0).2.1 rest).2.2.2.1,
           (detachClient clients un c0).2.2 ++
             (reattachScan dev (detachClient clients un c0).1
               (detachClient clients un c0).2.1 rest).2.2.2.2) := by
        simp [reattachScan, hc, hbne, hk]
      obtain ⟨hdself, hdun⟩ := detachClient_self clients un c0 c hc hb
      have hvalr : ∀ cid ∈ rest, ∃ c2,
          (detachClient clients un c0).1[cid]? = some c2 ∧
          c2.broadcast = false := by
        intro cid hcid
        obtain ⟨c2, hc2, hb2⟩ := hval cid (List.mem_cons_of_mem _ hcid)
        exact ⟨c2, by
          rw [detachClient_frame clients un c0 cid
            (fun hh => hnotin (hh ▸ hcid))]
          exact hc2, hb2⟩
      obtain ⟨ihl, ihf, ihs, ihk, ihknd, det, ihu, ihdnd, ihdet⟩ :=
        ih (detachClient clients un c0).1 (detachClient clients un c0).2.1
          hvalr hndr
      rw [hexp]
      have hframe : ∀ j, j ∉ rest →
          (reattachScan dev (detachClient clients un c0).1
            (detachClient clients un c0).2.1 rest).1[j]? =
          (detachClient clients un c0).1[j]? := ihf
      refine ⟨by rw [ihl, detachClient_length], ?_, ?_, ?_, ihknd,
        c0 :: det, ?_, ?_, ?_⟩
      · intro j hj
        have hj0 : j ≠ c0 := fun hh => hj (hh ▸ List.mem_cons_self _ _)
        have hjr : j ∉ rest := fun hh => hj (List.mem_cons_of_mem _ hh)
        rw [hframe j hjr, detachClient_frame clients un c0 j hj0]
      · intro cid hcid
        rcases List.mem_cons.mp hcid with rfl | hcid
        · refine Or.inr ?_
          rw [ihu, hdun]
          simp
        · rcases ihs cid hcid with h | h
          · exact Or.inl h
          · exact Or.inr h
      · intro cid hcid
        obtain ⟨h1, h2, c2, i, hc2, hi, hsci⟩ := ihk cid hcid
        have hne : cid ≠ c0 := fun hh => hnotin (hh ▸ h1)
        refine ⟨List.mem_cons_of_mem _ h1, ?_, c2, i, ?_, hi, hsci⟩
        · rw [h2, detachClient_frame clients un c0 cid hne]
        · rw [detachClient_frame clients un c0 cid hne] at hc2
          exact hc2
      · rw [ihu, hdun]
        simp
      · refine List.nodup_cons.mpr ⟨?_, ihdnd⟩
        intro hmem
        exact hnotin (ihdet c0 hmem).1
      · intro cid hcid
        rcases List.mem_cons.mp hcid with rfl | hcid
        · refine ⟨List.mem_cons_self _ _, c, hc, ?_⟩
          rw [hframe cid hnotin, hdself]
        · obtain ⟨h1, c2, hc2, hres⟩ := ihdet cid hcid
          have hne : cid ≠ c0 := fun hh => hnotin (hh ▸ h1)
          refine ⟨List.mem_cons_of_mem _ h1, c2, ?_, hres⟩
          rw [detachClient_frame clients un c0 cid hne] at hc2
          exact hc2

theorem attachCands_spec (dev : DeviceT) (i : Nat) (cands : List Nat) :
    ∀ (clients : List ClientT) (un devClients : List Nat),
    (∀ cid ∈ cands, ∃ c, clients[cid]? = some c ∧ c.broadcast = false) →
    (attachCands dev i clients un devClients cands =
      (clients, un, devClients, [])) ∨
    (∃ cid c, cid ∈ cands ∧ clients[cid]? = some c ∧ c.broadcast = false ∧
      some c.service_class = dev.service_class_at i ∧
      (attachCands dev i clients un devClients cands).1[cid]? =
        some { c with device := some dev.device_id, service_index := some i } ∧
      (∀ j, j ≠ cid →
        (attachCands dev i clients un devClients cands).1[j]? = clients[j]?) ∧
      (attachCands dev i clients un devClients cands).1.length =
        clients.length ∧
      (attachCands dev i clients un devClients cands).2.1 = un.erase cid ∧
      (attachCands dev i clients un devClients cands).2.2.1 =
        devClients ++ [cid]) := by
  induction cands with
  | nil => intro clients un devClients _; exact Or.inl rfl
  | cons c0 rest ih =>
    intro clients un devClients hval
    obtain ⟨c, hc, hb⟩ := hval c0 (List.mem_cons_self _ _)
    by_cases hm : some c.service_class = dev.service_class_at i
    · obtain ⟨ha1, ha2, ha3, ha4, ha5⟩ :=
        attachClient_spec clients un c0 dev.device_id i c hc hb
      have hexp : attachCands dev i clients un devClients (c0 :: rest) =
          ((attachClient clients un c0 dev.device_id i).1,
           (attachClient clients un c0 dev.device_id i).2.1,
           devClients ++ [c0],
           (attachClient clients un c0 dev.device_id i).2.2.1) := by
        simp [attachCands, hc, hm, ha4]
      refine Or.inr ⟨c0, c, List.mem_cons_self _ _, hc, hb, hm, ?_, ?_, ?_, ?_, ?_⟩
      · rw [hexp]; exact ha1
      · intro j hj; rw [hexp]; exact ha2 j hj
      · rw [hexp]; exact ha5
      · rw [hexp]; exact ha3
      · rw [hexp]
    · have hexp : attachCands dev i clients un devClients (c0 :: rest) =
          attachCands dev i clients un devClients rest := by
        simp [attachCands, hc, hm]
      rw [hexp]
      rcases ih clients un devClients
        (fun cid hcid => hval cid (List.mem_cons_of_mem _ hcid)) with h | h
      · exact Or.inl h
      · obtain ⟨cid, c2, h1, h2⟩ := h
        exact Or.inr ⟨cid, c2, List.mem_cons_of_mem _ h1, h2⟩

theorem attachLoop_spec (dev : DeviceT) (occ : List Nat) (idxs : List Nat) :
    ∀ (clients : List ClientT) (un devClients : List Nat),
    (∀ i ∈ idxs, 0 < i) →
    LoopInv dev clients un devClients →
    LoopInv dev (attachLoop dev occ clients un devClients idxs).1
      (attachLoop dev occ clients un devClients idxs).2.1
      (attachLoop dev occ clients un devClients idxs).2.2.1 ∧
    (attachLoop dev occ clients un devClients idxs).1.length =
      clients.length ∧
    (∀ j, j ∉ un →
      (attachLoop dev occ clients un devClients idxs).1[j]? = clients[j]?) ∧
    (∀ cid ∈ (attachLoop dev occ clients un devClients idxs).2.1,
      cid ∈ un) ∧
    (∀ cid ∈ un, cid ∈ (attachLoop dev occ clients un devClients idxs).2.1 ∨
      cid ∈ (attachLoop dev occ clients un devClients idxs).2.2.1) ∧
    (∀ cid ∈ (attachLoop dev occ clients un devClients idxs).2.2.1,
      cid ∈ devClients ∨ cid ∈ un) ∧
    (∀ cid ∈ devClients,
      cid ∈ (attachLoop dev occ clients un devClients idxs).2.2.1) := by
  induction idxs with
  | nil =>
    intro clients un devClients _ hinv
    exact ⟨hinv, rfl, fun j _ => rfl, fun cid h => h,
      fun cid h => Or.inl h, fun cid h => Or.inl h, fun cid h => h⟩
  | cons i rest ih =>
    intro clients un devClients hpos hinv
    by_cases hocc : i ∈ occ
    · have hexp : attachLoop dev occ clients un devClients (i :: rest) =
          attachLoop dev occ clients un devClients rest := by
        simp [attachLoop, hocc]
      rw [hexp]
      exact ih clients un devClients
        (fun j hj => hpos j (List.mem_cons_of_mem _ hj)) hinv
    · obtain ⟨ha, hbnd, hdc, hdnd⟩ := hinv
      have hexp : attachLoop dev occ clients un devClients (i :: rest) =
          ((attachLoop dev occ
              (attachCands dev i clients un devClients un).1
              (attachCands dev i clients un devClients un).2.1
              (attachCands dev i clients un devClients un).2.2.1 rest).1,
           (attachLoop dev occ
              (attachCands dev i clients un devClients un).1
              (attachCands dev i clients un devClients un).2.1
              (attachCands dev i clients un devClients un).2.2.1 rest).2.1,
           (attachLoop dev occ
              (attachCands dev i clients un devClients un).1
              (attachCands dev i clients un devClients un).2.1
              (attachCands dev i clients un devClients un).2.2.1 rest).2.2.1,
           (attachCands dev i clients un devClients un).2.2.2 ++
             (attachLoop dev occ
              (attachCands dev i clients un devClients un).1
              (attachCands dev i clients un devClients un).2.1
              (attachCands dev i clients un devClients un).2.2.1 rest).2.2.2) := by
        simp [attachLoop, hocc]
      rw [hexp]
      rcases attachCands_spec dev i un clients un devClients
          (fun cid hcid => (ha cid hcid).imp
            (fun c hcc => ⟨hcc.1, hcc.2.2⟩)) with hA | hB
      · rw [hA]
        exact ih clients un devClients
          (fun j hj => hpos j (List.mem_cons_of_mem _ hj))
          ⟨ha, hbnd, hdc, hdnd⟩
      · obtain ⟨cid, c, hmem, hc, hb, hm, hset, hframe, hlen, hun, hdcl⟩ := hB
        obtain ⟨cx, hcx, hdevx, hbx⟩ := ha cid hmem
        have hcx2 : cx = c := by rw [hc] at hcx; exact (Option.some.inj hcx).symm
        subst hcx2
        have hinv2 : LoopInv dev (attachCands dev i clients un devClients un).1
            (attachCands dev i clients un devClients un).2.1
            (attachCands dev i clients un devClients un).2.2.1 := by
          rw [hun, hdcl]
          refine ⟨?_, hbnd.erase cid, ?_, ?_⟩
          · intro x hx
            have hxu : x ∈ un := List.mem_of_mem_erase hx
            have hxne : x ≠ cid := ((List.Nodup.mem_erase_iff hbnd).mp hx).1
            obtain ⟨c2, hc2, hd2, hb2⟩ := ha x hxu
            exact ⟨c2, by rw [hframe x hxne]; exact hc2, hd2, hb2⟩
          · intro x hx
            rcases List.mem_append.mp hx with hx | hx
            · obtain ⟨c2, hc2, hd2, hrest⟩ := hdc x hx
              have hxne : x ≠ cid := by
                intro hh
                subst hh
                rw [hc] at hc2
                rw [(Option.some.inj hc2).symm] at hd2
                rw [hdevx] at hd2
                cases hd2
              exact ⟨c2, by rw [hframe x hxne]; exact hc2, hd2, hrest⟩
            · have hx2 : x = cid := by simpa using hx
              subst hx2
              exact ⟨_, hset, rfl, hb, i, rfl, hpos i (List.mem_cons_self _ _),
                hm.symm⟩
          · refine List.nodup_append.mpr ⟨hdnd, List.nodup_singleton _, ?_⟩
            intro x hx
            obtain ⟨c2, hc2, hd2, _⟩ := hdc x hx
            simp only [List.mem_singleton]
            intro hh
            subst hh
            rw [hc] at hc2
            rw [(Option.some.inj hc2).symm] at hd2
            rw [hdevx] at hd2
            cases hd2
        obtain ⟨ih1, ih2, ih3, ih4, ih5, ih6, ih7⟩ := ih _ _ _
          (fun j hj => hpos j (List.mem_cons_of_mem _ hj)) hinv2
        refine ⟨ih1, ?_, ?_, ?_, ?_, ?_, ?_⟩
        · rw [ih2, hlen]
        · intro j hj
          have hjne : j ≠ cid := fun hh => hj (hh ▸ hmem)
          have hj2 : j ∉ (attachCands dev i clients un devClients un).2.1 := by
            rw [hun]
            exact fun hh => hj (List.mem_of_mem_erase hh)
          rw [ih3 j hj2, hframe j hjne]
        · intro x hx
          have := ih4 x hx
          rw [hun] at this
          exact List.mem_of_mem_erase this
        · intro x hx
          by_cases hxe : x = cid
          · subst hxe
            refine Or.inr (ih7 x ?_)
            rw [hdcl]
            simp
          · have hx2 : x ∈ (attachCands dev i clients un devClients un).2.1 := by
              rw [hun]
              exact (List.Nodup.mem_erase_iff hbnd).mpr ⟨hxe, hx⟩
            exact ih5 x hx2
        · intro x hx
          rcases ih6 x hx with h | h
          · rw [hdcl] at h
            rcases List.mem_append.mp h with h | h
            · exact Or.inl h
            · right
              have hx2 : x = cid := by simpa using h
              exact hx2 ▸ hmem
          · rw [hun] at h
            exact Or.inr (List.mem_of_mem_erase h)
        · intro x hx
          refine ih7 x ?_
          rw [hdcl]
          exact List.mem_append_left _ hx

theorem deliver_length (devId sc idx : Nat) (cids : List Nat) :
    ∀ clients, (deliver clients devId sc idx cids).1.length = clients.length := by
  induction cids with
  | nil => intro clients; rfl
  | cons cid rest ih =>
    intro clients
    rcases hc : clients[cid]? with _ | c
    · simp only [deliver, hc]
      exact ih clients
    · simp only [deliver, hc]
      split
      · rw [ih, List.length_set]
      · exact ih clients

theorem deliver_entry (devId sc idx : Nat) (cids : List Nat) :
    ∀ (clients : List ClientT) (j : Nat),
      (deliver clients devId sc idx cids).1[j]? = clients[j]? ∨
      (∃ c : ClientT, clients[j]? = some c ∧
        (deliver clients devId sc idx cids).1[j]? =
          some { c with current_device := some devId }) := by
  induction cids with
  | nil => intro clients j; exact Or.inl rfl
  | cons cid rest ih =>
    intro clients j
    rcases hc : clients[cid]? with _ | c
    · simp only [deliver, hc]
      exact ih clients j
    · simp only [deliver, hc]
      split
      · by_cases hj : j = cid
        · subst hj
          have hlt : j < clients.length := by
            by_contra hge
            rw [List.getElem?_eq_none (Nat.le_of_not_lt hge)] at hc
            cases hc
          have hset : (clients.set j
              { c with current_device := some devId })[j]? =
              some { c with current_device := some devId } :=
            getq_set_self _ _ _ hlt
          rcases ih (clients.set j { c with current_device := some devId }) j
            with h | ⟨c2, hc2, h⟩
          · rw [hset] at h
            exact Or.inr ⟨c, hc, h⟩
          · rw [hset] at hc2
            rw [(Option.some.inj hc2).symm] at h
            exact Or.inr ⟨c, hc, h⟩
        · have hset : (clients.set cid
              { c with current_device := some devId })[j]? = clients[j]? :=
            getq_set_other _ _ _ _ (fun hh => hj hh.symm)
          rcases ih (clients.set cid { c with current_device := some devId }) j
            with h | ⟨c2, hc2, h⟩
          · rw [hset] at h
            exact Or.inl h
          · rw [hset] at hc2
            exact Or.inr ⟨c2, hc2, h⟩
      · exact ih clients j

/-- `service_class_at` depends only on `services`. -/
theorem service_class_at_congr (a b : DeviceT) (h : a.services = b.services)
    (i : Nat) : a.service_class_at i = b.service_class_at i := by
  simp [DeviceT.service_class_at, DeviceT.num_service_classes, h]

/-- One `process_packet` step: the device's identity, services and client
list are untouched, and client entries change at most in `current_device`. -/
theorem process_packet_frame (d : DeviceT) (clients : List ClientT)
    (pkt : JDPacket) (t : Nat) :
    (d.process_packet clients pkt t).dev.device_id = d.device_id ∧
    (d.process_packet clients pkt t).dev.services = d.services ∧
    (d.process_packet clients pkt t).dev.clients = d.clients ∧
    (∀ j : Nat, (d.process_packet clients pkt t).clients[j]? = clients[j]? ∨
      ∃ c : ClientT, clients[j]? = some c ∧
        (d.process_packet clients pkt t).clients[j]? =
          some { c with current_device := some d.device_id }) ∧
    (d.process_packet clients pkt t).clients.length = clients.length := by
  rcases hsc : d.service_class_at pkt.service_index with _ | sc
  · rw [process_packet_unusable_eq d clients pkt t (Or.inl hsc)]
    exact ⟨rfl, rfl, rfl, fun j => Or.inl rfl, rfl⟩
  · by_cases hun : sc = 0 ∨ sc = 0xffffffff
    · have hu : d.service_class_at pkt.service_index = none ∨
          d.service_class_at pkt.service_index = some 0 ∨
          d.service_class_at pkt.service_index = some 0xffffffff := by
        rcases hun with rfl | rfl
        · exact Or.inr (Or.inl hsc)
        · exact Or.inr (Or.inr hsc)
      rw [process_packet_unusable_eq d clients pkt t hu]
      exact ⟨rfl, rfl, rfl, fun j => Or.inl rfl, rfl⟩
    · rw [not_or] at hun
      obtain ⟨hsc0, hscf⟩ := hun
      cases hev : pkt.is_event with
      | false =>
        rw [process_packet_report_eq d clients pkt t sc hsc hsc0 hscf hev]
        exact ⟨rfl, rfl, rfl, deliver_entry _ _ _ _ clients,
          deliver_length _ _ _ _ clients⟩
      | true =>
        rw [process_packet_event_eq d clients pkt t sc hsc hsc0 hscf hev]
        split
        · exact ⟨rfl, rfl, rfl, fun j => Or.inl rfl, rfl⟩
        · exact ⟨rfl, rfl, rfl, deliver_entry _ _ _ _ clients,
            deliver_length _ _ _ _ clients⟩

theorem updDev_map_id (l : List DeviceT) (d : DeviceT) :
    (updDev l d).map DeviceT.device_id = l.map DeviceT.device_id := by
  induction l with
  | nil => rfl
  | cons x rest ih =>
    simp only [updDev, List.map_cons] at ih ⊢
    by_cases hx : x.device_id = d.device_id
    · rw [if_pos hx, ih, hx]
    · rw [if_neg hx, ih]

theorem mem_updDev_of_ne (l : List DeviceT) (d x : DeviceT) (hx : x ∈ l)
    (hne : x.device_id ≠ d.device_id) : x ∈ updDev l d := by
  simp only [updDev, List.mem_map]
  exact ⟨x, hx, by rw [if_neg hne]⟩

theorem mem_updDev_self (l : List DeviceT) (d : DeviceT)
    (h : ∃ x ∈ l, x.device_id = d.device_id) : d ∈ updDev l d := by
  obtain ⟨x, hx, hid⟩ := h
  simp only [updDev, List.mem_map]
  exact ⟨x, hx, by rw [if_pos hid]⟩

theorem updDev_mem_cases (l : List DeviceT) (d y : DeviceT)
    (hy : y ∈ updDev l d) :
    y = d ∨ (y ∈ l ∧ y.device_id ≠ d.device_id) := by
  simp only [updDev, List.mem_map] at hy
  obtain ⟨x, hx, hxy⟩ := hy
  by_cases hid : x.device_id = d.device_id
  · rw [if_pos hid] at hxy
    exact Or.inl hxy.symm
  · rw [if_neg hid] at hxy
    exact Or.inr ⟨hxy ▸ hx, hxy ▸ hid⟩

theorem eq_of_mem_map_nodup {α β : Type} (f : α → β) (l : List α)
    (h : (l.map f).Nodup) :
    ∀ x ∈ l, ∀ y ∈ l, f x = f y → x = y := by
  induction l with
  | nil => intro x hx; simp at hx
  | cons a rest ih =>
    intro x hx y hy hf
    simp only [List.map_cons, List.nodup_cons] at h
    rcases List.mem_cons.mp hx with hx1 | hx1
    · rcases List.mem_cons.mp hy with hy1 | hy1
      · rw [hx1, hy1]
      · subst hx1
        refine absurd ?_ h.1
        rw [hf]
        exact List.mem_map_of_mem f hy1
    · rcases List.mem_cons.mp hy with hy1 | hy1
      · subst hy1
        refine absurd ?_ h.1
        rw [← hf]
        exact List.mem_map_of_mem f hx1
      · exact ih h.2 x hx1 y hy1 hf

/-- Routing a packet into a known device preserves the attachment
invariant: it only moves `last_seen`/`event_counter` on the device and
`current_device` on clients. -/
theorem devProcessById_inv (s : BusState) (did : Nat) (pkt : JDPacket)
    (t : Nat) (hinv : BusInv s) : BusInv (devProcessById s did pkt t).1 := by
  rcases hfind : s.devices.find? (fun d => d.device_id == did) with _ | d
  · simp only [devProcessById, hfind]
    exact hinv
  · have hdmem : d ∈ s.devices := List.mem_of_find?_eq_some hfind
    obtain ⟨hfid, hfsv, hfcl, hent, _⟩ := process_packet_frame d s.clients pkt t
    have hent' : ∀ (cid : Nat) (c : ClientT),
        (d.process_packet s.clients pkt t).clients[cid]? = some c →
        ∃ c0 : ClientT, s.clients[cid]? = some c0 ∧ c0.device = c.device ∧
          c0.service_index = c.service_index ∧
          c0.service_class = c.service_class ∧ c0.broadcast = c.broadcast := by
      intro cid c hc
      rcases hent cid with h | ⟨c0, hc0, h⟩
      · rw [hc] at h
        exact ⟨c, h.symm, rfl, rfl, rfl, rfl⟩
      · rw [hc] at h
        have hce := Option.some.inj h
        subst hce
        exact ⟨c0, hc0, rfl, rfl, rfl, rfl⟩
    have hback' : ∀ (cid : Nat) (c0 : ClientT), s.clients[cid]? = some c0 →
        ∃ c : ClientT,
          (d.process_packet s.clients pkt t).clients[cid]? = some c ∧
          c.device = c0.device := by
      intro cid c0 hc0
      rcases hent cid with h | ⟨c1, hc1, h⟩
      · exact ⟨c0, by rw [h]; exact hc0, rfl⟩
      · rw [hc0] at hc1
        have hce := Option.some.inj hc1
        subst hce
        exact ⟨_, h, rfl⟩
    simp only [devProcessById, hfind]
    refine ⟨?_, ?_, ?_, ?_, hinv.unodup, ?_, ?_⟩
    · -- main
      intro cid c dId hc hdev
      obtain ⟨c0, hc0, hd0, hs0, hcl0, _⟩ := hent' cid c hc
      obtain ⟨d2, hd2, hd2id, hcin, i, hsi, hip, hsc2⟩ :=
        hinv.main cid c0 dId hc0 (by rw [hd0, hdev])
      by_cases hid : d2.device_id = d.device_id
      · have hd2d : d2 = d := eq_of_mem_map_nodup _ _ hinv.uniq d2 hd2 d hdmem hid
        rw [hd2d] at hd2id hcin hsc2
        refine ⟨(d.process_packet s.clients pkt t).dev,
          mem_updDev_self _ _ ⟨d, hdmem, hfid.symm⟩, by rw [hfid, hd2id], ?_,
          i, by rw [← hs0, hsi], hip, ?_⟩
        · rw [hfcl]
          exact hcin
        · rw [service_class_at_congr _ d hfsv i, ← hcl0]
          exact hsc2
      · refine ⟨d2, mem_updDev_of_ne _ _ _ hd2 (by rw [hfid]; exact hid),
          hd2id, hcin, i, by rw [← hs0, hsi], hip, by rw [← hcl0]; exact hsc2⟩
    · -- back
      intro d2 hd2 cid hcid
      rcases updDev_mem_cases _ _ _ hd2 with rfl | ⟨hd2m, hd2ne⟩
      · rw [hfcl] at hcid
        obtain ⟨c0, hc0, hdev0⟩ := hinv.back d hdmem cid hcid
        obtain ⟨c, hc, hcd⟩ := hback' cid c0 hc0
        exact ⟨c, hc, by rw [hcd, hdev0, hfid]⟩
      · obtain ⟨c0, hc0, hdev0⟩ := hinv.back d2 hd2m cid hcid
        obtain ⟨c, hc, hcd⟩ := hback' cid c0 hc0
        exact ⟨c, hc, by rw [hcd, hdev0]⟩
    · -- nobc
      intro cid c hc
      obtain ⟨c0, hc0, _, _, _, hb0⟩ := hent' cid c hc
      rw [← hb0]
      exact hinv.nobc cid c0 hc0
    · -- unatt
      intro cid hcid
      obtain ⟨c0, hc0, hdev0⟩ := hinv.unatt cid hcid
      obtain ⟨c, hc, hcd⟩ := hback' cid c0 hc0
      exact ⟨c, hc, by rw [hcd, hdev0]⟩
    · -- dnodup
      intro d2 hd2
      rcases updDev_mem_cases _ _ _ hd2 with rfl | ⟨hd2m, _⟩
      · rw [hfcl]
        exact hinv.dnodup d hdmem
      · exact hinv.dnodup d2 hd2m
    · -- uniq
      rw [updDev_map_id]
      exact hinv.uniq

/-- The attach pass of `Bus._reattach` (the nonempty-unattached branch)
restores the full attachment invariant, given the outcome facts of the
retention scan. -/
theorem attach_pass_inv (s : BusState) (dev : DeviceT) (t : Nat)
    (SCl : List ClientT) (SCun SCk SCocc det : List Nat)
    (hmem : dev ∈ s.devices)
    (hmainO : ∀ (cid : Nat) (c : ClientT) (dId : Nat),
      s.clients[cid]? = some c → c.device = some dId →
      dId ≠ dev.device_id →
      ∃ d, d ∈ s.devices ∧ d.device_id = dId ∧ cid ∈ d.clients ∧
        ∃ i, c.service_index = some i ∧ 0 < i ∧
          d.service_class_at i = some c.service_class)
    (hmainD : ∀ (cid : Nat) (c : ClientT), s.clients[cid]? = some c →
      c.device = some dev.device_id →
      cid ∈ dev.clients ∧ ∃ i, c.service_index = some i ∧ 0 < i)
    (hback : ∀ d ∈ s.devices, ∀ cid ∈ d.clients,
      ∃ c, s.clients[cid]? = some c ∧ c.device = some d.device_id)
    (hnobc : ∀ (cid : Nat) (c : ClientT),
      s.clients[cid]? = some c → c.broadcast = false)
    (hunatt : ∀ cid ∈ s.unattached,
      ∃ c, s.clients[cid]? = some c ∧ c.device = none)
    (hunodup : s.unattached.Nodup)
    (hdnodup : ∀ d ∈ s.devices, d.clients.Nodup)
    (huniq : (s.devices.map DeviceT.device_id).Nodup)
    (hdisj : ∀ cid ∈ s.unattached, cid ∉ dev.clients)
    (Sframe : ∀ j, j ∉ dev.clients → SCl[j]? = s.clients[j]?)
    (Ssplit : ∀ cid ∈ dev.clients, cid ∈ SCk ∨ cid ∈ SCun)
    (Skept : ∀ cid ∈ SCk, cid ∈ dev.clients ∧ SCl[cid]? = s.clients[cid]? ∧
      ∃ c i, s.clients[cid]? = some c ∧ c.service_index = some i ∧
        DeviceT.service_class_at { dev with last_seen := t } i =
          some c.service_class)
    (Skeptnd : SCk.Nodup)
    (Sun : SCun = s.unattached ++ det)
    (Sdetnd : det.Nodup)
    (Sdet : ∀ cid ∈ det, cid ∈ dev.clients ∧ ∃ c, s.clients[cid]? = some c ∧
      SCl[cid]? = some { c with service_index := none, device := none }) :
    BusInv { s with
      clients := (attachLoop { dev with last_seen := t, clients := SCk }
        SCocc SCl SCun SCk
        (List.range' 1
          (DeviceT.num_service_classes
            { dev with last_seen := t, clients := SCk } - 1))).1
      unattached := (attachLoop { dev with last_seen := t, clients := SCk }
        SCocc SCl SCun SCk
        (List.range' 1
          (DeviceT.num_service_classes
            { dev with last_seen := t, clients := SCk } - 1))).2.1
      devices := updDev s.devices { dev with
        last_seen := t
        clients := (attachLoop { dev with last_seen := t, clients := SCk }
          SCocc SCl SCun SCk
          (List.range' 1
            (DeviceT.num_service_classes
              { dev with last_seen := t, clients := SCk } - 1))).2.2.1 } } := by
  have hpos : ∀ i ∈ List.range' 1
      (DeviceT.num_service_classes { dev with last_seen := t, clients := SCk } - 1),
      0 < i := by
    intro i hi
    have := (List.mem_range'_1.mp hi).1
    omega
  -- the scanned entries, pointwise
  have Spoint : ∀ (cid : Nat) (c : ClientT), SCl[cid]? = some c →
      ∃ c0, s.clients[cid]? = some c0 ∧
        (c = c0 ∨ c = { c0 with service_index := none, device := none }) := by
    intro cid c hc
    by_cases hmemd : cid ∈ dev.clients
    · rcases Ssplit cid hmemd with hk | hu
      · obtain ⟨_, hEq, _⟩ := Skept cid hk
        rw [hEq] at hc
        exact ⟨c, hc, Or.inl rfl⟩
      · rw [Sun] at hu
        rcases List.mem_append.mp hu with hu | hd
        · exact absurd hmemd (hdisj cid hu)
        · obtain ⟨_, c0, hc0, hres⟩ := Sdet cid hd
          rw [hc] at hres
          exact ⟨c0, hc0, Or.inr (Option.some.inj hres)⟩
    · rw [Sframe cid hmemd] at hc
      exact ⟨c, hc, Or.inl rfl⟩
  have hLI : LoopInv { dev with last_seen := t, clients := SCk } SCl SCun SCk := by
    refine ⟨?_, ?_, ?_, Skeptnd⟩
    · -- unattached candidates are detached non-broadcast clients
      intro cid hcid
      rw [Sun] at hcid
      rcases List.mem_append.mp hcid with hu | hd
      · obtain ⟨c, hc, hdev⟩ := hunatt cid hu
        refine ⟨c, ?_, hdev, hnobc cid c hc⟩
        rw [Sframe cid (hdisj cid hu)]
        exact hc
      · obtain ⟨-, c0, hc0, hres⟩ := Sdet cid hd
        exact ⟨_, hres, rfl, hnobc cid c0 hc0⟩
    · -- no duplicates in the unattached list
      rw [Sun]
      refine List.nodup_append.mpr ⟨hunodup, Sdetnd, ?_⟩
      intro x hx hx2
      exact hdisj x hx (Sdet x hx2).1
    · -- retained clients satisfy the attachment facts
      intro cid hcid
      obtain ⟨hdd, hEq, c, i, hc, hsi, hsc⟩ := Skept cid hcid
      obtain ⟨c2, hc2, hdev2⟩ := hback dev hmem cid hdd
      rw [hc] at hc2
      rw [← Option.some.inj hc2] at hdev2
      obtain ⟨-, i2, hsi2, hip2⟩ := hmainD cid c hc hdev2
      have hii : i2 = i := by
        rw [hsi] at hsi2
        exact (Option.some.inj hsi2).symm
      refine ⟨c, ?_, hdev2, hnobc cid c hc, i, hsi, ?_, hsc⟩
      · rw [hEq]
        exact hc
      · rw [← hii]
        exact hip2
  obtain ⟨⟨La, Lb, Lc, Ld⟩, L2, L3, L4, L5, L6, L7⟩ :=
    attachLoop_spec { dev with last_seen := t, clients := SCk } SCocc
      (List.range' 1
        (DeviceT.num_service_classes
          { dev with last_seen := t, clients := SCk } - 1))
      SCl SCun SCk hpos hLI
  refine ⟨?_, ?_, ?_, ?_, Lb, ?_, ?_⟩
  · -- main
    intro cid c dId hc hdev
    by_cases hcr : cid ∈ SCun
    · rcases L5 cid hcr with h | h
      · obtain ⟨c', hc', hdev', -⟩ := La cid h
        rw [hc] at hc'
        rw [← Option.some.inj hc'] at hdev'
        rw [hdev] at hdev'
        cases hdev'
      · obtain ⟨c', hc', hdev', -, i, hsi', hip', hsc'⟩ := Lc cid h
        rw [hc] at hc'
        rw [← Option.some.inj hc'] at hdev' hsi' hsc'
        have hdId : dId = dev.device_id := by
          rw [hdev] at hdev'
          exact Option.some.inj hdev'
        exact ⟨_, mem_updDev_self _ _ ⟨dev, hmem, rfl⟩, hdId.symm, h, i,
          hsi', hip', hsc'⟩
    · have hcrf := L3 cid hcr
      rw [hcrf] at hc
      by_cases hdd : cid ∈ dev.clients
      · rcases Ssplit cid hdd with hk | hu2
        · have hk2 := L7 cid hk
          obtain ⟨c', hc', hdev', -, i, hsi', hip', hsc'⟩ := Lc cid hk2
          rw [hcrf] at hc'
          rw [hc] at hc'
          rw [← Option.some.inj hc'] at hdev' hsi' hsc'
          have hdId : dId = dev.device_id := by
            rw [hdev] at hdev'
            exact Option.some.inj hdev'
          exact ⟨_, mem_updDev_self _ _ ⟨dev, hmem, rfl⟩, hdId.symm, hk2, i,
            hsi', hip', hsc'⟩
        · exact absurd hu2 hcr
      · rw [Sframe cid hdd] at hc
        by_cases hdid : dId = dev.device_id
        · obtain ⟨hin, -⟩ := hmainD cid c hc (by rw [hdev, hdid])
          exact absurd hin hdd
        · obtain ⟨d2, hd2, hd2id, hcin, i, hsi, hip, hsc2⟩ :=
            hmainO cid c dId hc hdev hdid
          exact ⟨d2, mem_updDev_of_ne _ _ _ hd2 (by
              show d2.device_id ≠ dev.device_id
              rw [hd2id]; exact hdid),
            hd2id, hcin, i, hsi, hip, hsc2⟩
  · -- back
    intro d2 hd2 cid hcid
    rcases updDev_mem_cases _ _ _ hd2 with rfl | ⟨hd2m, hd2ne⟩
    · obtain ⟨c', hc', hdev', -⟩ := Lc cid hcid
      exact ⟨c', hc', hdev'⟩
    · obtain ⟨c0, hc0, hdev0⟩ := hback d2 hd2m cid hcid
      have hnd : cid ∉ dev.clients := by
        intro hdd
        obtain ⟨c1, hc1, hdev1⟩ := hback dev hmem cid hdd
        rw [hc0] at hc1
        rw [← Option.some.inj hc1] at hdev1
        rw [hdev0] at hdev1
        exact hd2ne (Option.some.inj hdev1)
      have hnu : cid ∉ SCun := by
        intro hu
        rw [Sun] at hu
        rcases List.mem_append.mp hu with hu | hd
        · obtain ⟨c1, hc1, hdev1⟩ := hunatt cid hu
          rw [hc0] at hc1
          rw [← Option.some.inj hc1] at hdev1
          rw [hdev0] at hdev1
          cases hdev1
        · exact hnd (Sdet cid hd).1
      refine ⟨c0, ?_, hdev0⟩
      rw [L3 cid hnu, Sframe cid hnd]
      exact hc0
  · -- nobc
    intro cid c hc
    by_cases hcr : cid ∈ SCun
    · rcases L5 cid hcr with h | h
      · obtain ⟨c', hc', -, hb'⟩ := La cid h
        rw [hc] at hc'
        rw [← Option.some.inj hc'] at hb'
        exact hb'
      · obtain ⟨c', hc', -, hb', -⟩ := Lc cid h
        rw [hc] at hc'
        rw [← Option.some.inj hc'] at hb'
        exact hb'
    · rw [L3 cid hcr] at hc
      obtain ⟨c0, hc0, hcc⟩ := Spoint cid c hc
      rcases hcc with rfl | rfl
      · exact hnobc cid _ hc0
      · show c0.broadcast = false
        exact hnobc cid c0 hc0
  · -- unatt
    intro cid hcid
    obtain ⟨c', hc', hdev', -⟩ := La cid hcid
    exact ⟨c', hc', hdev'⟩
  · -- dnodup
    intro d2 hd2
    rcases updDev_mem_cases _ _ _ hd2 with rfl | ⟨hd2m, -⟩
    · exact Ld
    · exact hdnodup d2 hd2m
  · -- uniq
    rw [updDev_map_id]
    exact huniq

/-- `Bus._reattach` restores the full attachment invariant for a device
whose service vector just changed (or was just created), given the
invariant minus the class-match fact for that device's own clients. -/
theorem busReattach_inv (s : BusState) (dev : DeviceT) (t : Nat)
    (hmem : dev ∈ s.devices)
    (hmainO : ∀ (cid : Nat) (c : ClientT) (dId : Nat),
      s.clients[cid]? = some c → c.device = some dId →
      dId ≠ dev.device_id →
      ∃ d, d ∈ s.devices ∧ d.device_id = dId ∧ cid ∈ d.clients ∧
        ∃ i, c.service_index = some i ∧ 0 < i ∧
          d.service_class_at i = some c.service_class)
    (hmainD : ∀ (cid : Nat) (c : ClientT), s.clients[cid]? = some c →
      c.device = some dev.device_id →
      cid ∈ dev.clients ∧ ∃ i, c.service_index = some i ∧ 0 < i)
    (hback : ∀ d ∈ s.devices, ∀ cid ∈ d.clients,
      ∃ c, s.clients[cid]? = some c ∧ c.device = some d.device_id)
    (hnobc : ∀ (cid : Nat) (c : ClientT),
      s.clients[cid]? = some c → c.broadcast = false)
    (hunatt : ∀ cid ∈ s.unattached,
      ∃ c, s.clients[cid]? = some c ∧ c.device = none)
    (hunodup : s.unattached.Nodup)
    (hdnodup : ∀ d ∈ s.devices, d.clients.Nodup)
    (huniq : (s.devices.map DeviceT.device_id).Nodup) :
    BusInv (busReattach s dev t).1 := by
  have hdisj : ∀ cid ∈ s.unattached, cid ∉ dev.clients := by
    intro cid hu hd
    obtain ⟨c1, h1, hdev1⟩ := hunatt cid hu
    obtain ⟨c2, h2, hdev2⟩ := hback dev hmem cid hd
    rw [h1] at h2
    rw [(Option.some.inj h2).symm] at hdev2
    rw [hdev1] at hdev2
    cases hdev2
  have hval : ∀ cid ∈ dev.clients,
      ∃ c, s.clients[cid]? = some c ∧ c.broadcast = false := by
    intro cid hd
    obtain ⟨c, hc, _⟩ := hback dev hmem cid hd
    exact ⟨c, hc, hnobc cid c hc⟩
  obtain ⟨Slen, Sframe, Ssplit, Skept, Skeptnd, det, Sun, Sdetnd, Sdet⟩ :=
    reattachScan_spec { dev with last_seen := t } dev.clients s.clients
      s.unattached hval (hdnodup dev hmem)
  have hdetdisj : ∀ cid ∈ det, cid ∉ s.unattached := by
    intro cid hd hu
    exact hdisj cid hu (Sdet cid hd).1
  -- pointwise description of the scan's client table
  have Spoint : ∀ (cid : Nat) (c : ClientT),
      (reattachScan { dev with last_seen := t } s.clients s.unattached
        dev.clients).1[cid]? = some c →
      ∃ c0, s.clients[cid]? = some c0 ∧
        (c = c0 ∨ c = { c0 with service_index := none, device := none }) := by
    intro cid c hc
    by_cases hmemd : cid ∈ dev.clients
    · rcases Ssplit cid hmemd with hk | hu
      · obtain ⟨_, hEq, _⟩ := Skept cid hk
        rw [hEq] at hc
        exact ⟨c, hc, Or.inl rfl⟩
      · rw [Sun] at hu
        rcases List.mem_append.mp hu with hu | hd
        · exact absurd hmemd (hdisj cid hu)
        · obtain ⟨_, c0, hc0, hres⟩ := Sdet cid hd
          rw [hc] at hres
          exact ⟨c0, hc0, Or.inr (Option.some.inj hres)⟩
    · rw [Sframe cid hmemd] at hc
      exact ⟨c, hc, Or.inl rfl⟩
  by_cases hun : (reattachScan { dev with last_seen := t } s.clients
      s.unattached dev.clients).2.1 = []
  · -- the unattached list emptied: no attach pass
    have hstate : (busReattach s dev t).1 = { s with
        clients := (reattachScan { dev with last_seen := t } s.clients
          s.unattached dev.clients).1
        unattached := (reattachScan { dev with last_seen := t } s.clients
          s.unattached dev.clients).2.1
        devices := updDev s.devices { dev with
          last_seen := t
          clients := (reattachScan { dev with last_seen := t } s.clients
            s.unattached dev.clients).2.2.1 } } := by
      simp only [busReattach]
      rw [if_pos hun]
    rw [hstate]
    refine ⟨?_, ?_, ?_, ?_, ?_, ?_, ?_⟩
    · -- main
      intro cid c dId hc hdev
      by_cases hdd : cid ∈ dev.clients
      · rcases Ssplit cid hdd with hk | hu2
        · obtain ⟨_, hEq, c', i, hc', hsi, hsc⟩ := Skept cid hk
          rw [hEq] at hc
          rw [hc] at hc'
          have hcc : c = c' := Option.some.inj hc'
          rw [← hcc] at hsi hsc
          obtain ⟨c2, hc2, hdev2⟩ := hback dev hmem cid hdd
          rw [hc] at hc2
          rw [← Option.some.inj hc2] at hdev2
          rw [hdev] at hdev2
          have hdId : dId = dev.device_id := Option.some.inj hdev2
          obtain ⟨-, i2, hsi2, hip2⟩ := hmainD cid c hc (by rw [hdev, hdId])
          have hii : i2 = i := by
            rw [hsi] at hsi2
            exact (Option.some.inj hsi2).symm
          refine ⟨_, mem_updDev_self _ _ ⟨dev, hmem, rfl⟩, ?_, hk, i, hsi,
            ?_, ?_⟩
          · show dev.device_id = dId
            rw [hdId]
          · rw [← hii]
            exact hip2
          · exact hsc
        · rw [hun] at hu2
          cases hu2
      · rw [Sframe cid hdd] at hc
        by_cases hdid : dId = dev.device_id
        · obtain ⟨hin, -⟩ := hmainD cid c hc (by rw [hdev, hdid])
          exact absurd hin hdd
        · obtain ⟨d2, hd2, hd2id, hcin, i, hsi, hip, hsc2⟩ :=
            hmainO cid c dId hc hdev hdid
          exact ⟨d2, mem_updDev_of_ne _ _ _ hd2 (by
              show d2.device_id ≠ dev.device_id
              rw [hd2id]; exact hdid),
            hd2id, hcin, i, hsi, hip, hsc2⟩
    · -- back
      intro d2 hd2 cid hcid
      rcases updDev_mem_cases _ _ _ hd2 with rfl | ⟨hd2m, hd2ne⟩
      · obtain ⟨hkc, hEq, -⟩ := Skept cid hcid
        obtain ⟨c0, hc0, hdev0⟩ := hback dev hmem cid hkc
        refine ⟨c0, ?_, hdev0⟩
        rw [hEq]
        exact hc0
      · obtain ⟨c0, hc0, hdev0⟩ := hback d2 hd2m cid hcid
        have hnd : cid ∉ dev.clients := by
          intro hdd
          obtain ⟨c1, hc1, hdev1⟩ := hback dev hmem cid hdd
          rw [hc0] at hc1
          rw [← Option.some.inj hc1] at hdev1
          rw [hdev0] at hdev1
          exact hd2ne (Option.some.inj hdev1)
        refine ⟨c0, ?_, hdev0⟩
        rw [Sframe cid hnd]
        exact hc0
    · -- nobc
      intro cid c hc
      obtain ⟨c0, hc0, hcc⟩ := Spoint cid c hc
      rcases hcc with rfl | rfl
      · exact hnobc cid _ hc0
      · show c0.broadcast = false
        exact hnobc cid c0 hc0
    · -- unatt
      intro cid hcid
      rw [hun] at hcid
      cases hcid
    · -- unodup
      rw [hun]
      exact List.nodup_nil
    · -- dnodup
      intro d2 hd2
      rcases updDev_mem_cases _ _ _ hd2 with rfl | ⟨hd2m, -⟩
      · exact Skeptnd
      · exact hdnodup d2 hd2m
    · -- uniq
      rw [updDev_map_id]
      exact huniq
  · -- attach pass over the remaining unattached clients
    simp only [busReattach]
    rw [if_neg hun]
    exact attach_pass_inv s dev t
      (reattachScan { dev with last_seen := t } s.clients s.unattached
        dev.clients).1
      (reattachScan { dev with last_seen := t } s.clients s.unattached
        dev.clients).2.1
      (reattachScan { dev with last_seen := t } s.clients s.unattached
        dev.clients).2.2.1
      (reattachScan { dev with last_seen := t } s.clients s.unattached
        dev.clients).2.2.2.1
      det hmem hmainO hmainD hback hnobc hunatt hunodup hdnodup huniq hdisj
      Sframe Ssplit Skept Skeptnd Sun Sdetnd Sdet

theorem gcScan_spec (t : Nat) (devs : List DeviceT) :
    ∀ (clients : List ClientT) (un : List Nat),
    (∀ d ∈ devs, ∀ cid ∈ d.clients,
      ∃ c, clients[cid]? = some c ∧ c.broadcast = false) →
    (∀ d ∈ devs, d.clients.Nodup) →
    devs.Pairwise (fun a b => ∀ x ∈ a.clients, x ∉ b.clients) →
    (gcScan clients un t devs).1.Sublist devs ∧
    (∀ d ∈ (gcScan clients un t devs).1, d ∈ devs ∧
      ¬((d.last_seen : Int) < (t : Int) - 2000)) ∧
    (∀ d ∈ devs, ¬((d.last_seen : Int) < (t : Int) - 2000) →
      d ∈ (gcScan clients un t devs).1) ∧
    (∀ j : Nat, (∀ d ∈ devs, (d.last_seen : Int) < (t : Int) - 2000 →
        j ∉ d.clients) →
      (gcScan clients un t devs).2.1[j]? = clients[j]?) ∧
    (∀ d ∈ devs, (d.last_seen : Int) < (t : Int) - 2000 →
      ∀ cid ∈ d.clients, ∃ c, clients[cid]? = some c ∧
        (gcScan clients un t devs).2.1[cid]? =
          some { c with service_index := none, device := none }) ∧
    (∃ det, (gcScan clients un t devs).2.2.1 = un ++ det ∧ det.Nodup ∧
      ∀ cid ∈ det, ∃ d, d ∈ devs ∧ (d.last_seen : Int) < (t : Int) - 2000 ∧
        cid ∈ d.clients) := by
  induction devs with
  | nil =>
    intro clients un _ _ _
    exact ⟨List.Sublist.refl _, fun d h => absurd h (List.not_mem_nil d),
      fun d h => absurd h (List.not_mem_nil d), fun j _ => rfl,
      fun d h => absurd h (List.not_mem_nil d),
      ⟨[], by simp [gcScan], List.nodup_nil,
        fun cid h => absurd h (List.not_mem_nil cid)⟩⟩
  | cons d0 rest ih =>
    intro clients un hval hnd hpair
    have hvalr0 : ∀ cid ∈ d0.clients,
        ∃ c, clients[cid]? = some c ∧ c.broadcast = false :=
      hval d0 (List.mem_cons_self _ _)
    have hpairh : ∀ b ∈ rest, ∀ x ∈ d0.clients, x ∉ b.clients :=
      fun b hb => (List.pairwise_cons.mp hpair).1 b hb
    have hpairr : rest.Pairwise (fun a b => ∀ x ∈ a.clients, x ∉ b.clients) :=
      (List.pairwise_cons.mp hpair).2
    by_cases hst : (d0.last_seen : Int) < (t : Int) - 2000
    · -- d0 is collected
      obtain ⟨Df, Dd, Du, Dl⟩ := destroyClients_spec d0.clients clients un
        hvalr0 (hnd d0 (List.mem_cons_self _ _))
      have hexp : gcScan clients un t (d0 :: rest) =
          ((gcScan (destroyClients clients un d0.clients).1
              (destroyClients clients un d0.clients).2.1 t rest).1,
           (gcScan (destroyClients clients un d0.clients).1
              (destroyClients clients un d0.clients).2.1 t rest).2.1,
           (gcScan (destroyClients clients un d0.clients).1
              (destroyClients clients un d0.clients).2.1 t rest).2.2.1,
           true,
           (destroyClients clients un d0.clients).2.2 ++
             (gcScan (destroyClients clients un d0.clients).1
              (destroyClients clients un d0.clients).2.1 t rest).2.2.2.2) := by
        simp [gcScan, hst]
      have hvalr : ∀ d ∈ rest, ∀ cid ∈ d.clients, ∃ c,
          (destroyClients clients un d0.clients).1[cid]? = some c ∧
          c.broadcast = false := by
        intro d hd cid hcid
        obtain ⟨c, hc, hb⟩ := hval d (List.mem_cons_of_mem _ hd) cid hcid
        refine ⟨c, ?_, hb⟩
        rw [Df cid (fun hin => hpairh d hd cid hin hcid)]
        exact hc
      obtain ⟨isub, ikeep0, ikeep, iframe, idet, det2, iun, idetnd, idetm⟩ :=
        ih (destroyClients clients un d0.clients).1
          (destroyClients clients un d0.clients).2.1 hvalr
          (fun d hd => hnd d (List.mem_cons_of_mem _ hd)) hpairr
      rw [hexp]
      refine ⟨isub.cons _, ?_, ?_, ?_, ?_, d0.clients ++ det2, ?_, ?_, ?_⟩
      · intro d hd
        obtain ⟨h1, h2⟩ := ikeep0 d hd
        exact ⟨List.mem_cons_of_mem _ h1, h2⟩
      · intro d hd hns
        rcases List.mem_cons.mp hd with rfl | hd
        · exact absurd hst hns
        · exact ikeep d hd hns
      · intro j hj
        have hj0 : j ∉ d0.clients := hj d0 (List.mem_cons_self _ _) hst
        rw [iframe j (fun d hd hs => hj d (List.mem_cons_of_mem _ hd) hs),
          Df j hj0]
      · intro d hd hs cid hcid
        rcases List.mem_cons.mp hd with rfl | hd
        · obtain ⟨c, hc, hres⟩ := Dd cid hcid
          refine ⟨c, hc, ?_⟩
          rw [iframe cid (fun d2 hd2 hs2 hin =>
            hpairh d2 hd2 cid hcid hin)]
          exact hres
        · obtain ⟨c, hc, hres⟩ := idet d hd hs cid hcid
          refine ⟨c, ?_, hres⟩
          rw [Df cid (fun hin => hpairh d hd cid hin hcid)] at hc
          exact hc
      · rw [iun, Du]
        simp
      · refine List.nodup_append.mpr ⟨hnd d0 (List.mem_cons_self _ _),
          idetnd, ?_⟩
        intro x hx hx2
        obtain ⟨d2, hd2, -, hin⟩ := idetm x hx2
        exact hpairh d2 hd2 x hx hin
      · intro cid hcid
        rcases List.mem_append.mp hcid with h | h
        · exact ⟨d0, List.mem_cons_self _ _, hst, h⟩
        · obtain ⟨d2, hd2, hs2, hin⟩ := idetm cid h
          exact ⟨d2, List.mem_cons_of_mem _ hd2, hs2, hin⟩
    · -- d0 is kept
      have hexp : gcScan clients un t (d0 :: rest) =
          (d0 :: (gcScan clients un t rest).1,
           (gcScan clients un t rest).2.1,
           (gcScan clients un t rest).2.2.1,
           (gcScan clients un t rest).2.2.2.1,
           (gcScan clients un t rest).2.2.2.2) := by
        simp [gcScan, hst]
      obtain ⟨isub, ikeep0, ikeep, iframe, idet, det2, iun, idetnd, idetm⟩ :=
        ih clients un (fun d hd => hval d (List.mem_cons_of_mem _ hd))
          (fun d hd => hnd d (List.mem_cons_of_mem _ hd)) hpairr
      rw [hexp]
      refine ⟨isub.cons₂ _, ?_, ?_, ?_, ?_, det2, iun, idetnd, ?_⟩
      · intro d hd
        rcases List.mem_cons.mp hd with rfl | hd
        · exact ⟨List.mem_cons_self _ _, hst⟩
        · obtain ⟨h1, h2⟩ := ikeep0 d hd
          exact ⟨List.mem_cons_of_mem _ h1, h2⟩
      · intro d hd hns
        rcases List.mem_cons.mp hd with rfl | hd
        · exact List.mem_cons_self _ _
        · exact List.mem_cons_of_mem _ (ikeep d hd hns)
      · intro j hj
        exact iframe j (fun d hd hs => hj d (List.mem_cons_of_mem _ hd) hs)
      · intro d hd hs cid hcid
        rcases List.mem_cons.mp hd with rfl | hd
        · exact absurd hs hst
        · exact idet d hd hs cid hcid
      · intro cid hcid
        obtain ⟨d2, hd2, hs2, hin⟩ := idetm cid hcid
        exact ⟨d2, List.mem_cons_of_mem _ hd2, hs2, hin⟩

theorem gcTouched_facts (s : BusState) (t : Nat) :
    ((gcTouched s t).map DeviceT.device_id = s.devices.map DeviceT.device_id) ∧
    (∀ d1 ∈ gcTouched s t, ∃ d0, d0 ∈ s.devices ∧
      d1.device_id = d0.device_id ∧ d1.clients = d0.clients ∧
      ∀ i, d1.service_class_at i = d0.service_class_at i) ∧
    (∀ d0 ∈ s.devices, ∃ d1, d1 ∈ gcTouched s t ∧
      d1.device_id = d0.device_id ∧ d1.clients = d0.clients ∧
      ∀ i, d1.service_class_at i = d0.service_class_at i) := by
  have hpt : ∀ d0 : DeviceT,
      (if d0.device_id = s.selfId then { d0 with last_seen := t }
        else d0).device_id = d0.device_id ∧
      (if d0.device_id = s.selfId then { d0 with last_seen := t }
        else d0).clients = d0.clients ∧
      ∀ i, (if d0.device_id = s.selfId then { d0 with last_seen := t }
        else d0).service_class_at i = d0.service_class_at i := by
    intro d0
    by_cases h : d0.device_id = s.selfId
    · rw [if_pos h]
      exact ⟨rfl, rfl, fun i => service_class_at_last_seen d0 t i⟩
    · rw [if_neg h]
      exact ⟨rfl, rfl, fun i => rfl⟩
  refine ⟨?_, ?_, ?_⟩
  · simp only [gcTouched, List.map_map]
    refine List.map_congr_left ?_
    intro d _
    exact (hpt d).1
  · intro d1 hd1
    simp only [gcTouched] at hd1
    obtain ⟨d0, hd0, heq⟩ := List.mem_map.mp hd1
    rw [← heq]
    exact ⟨d0, hd0, (hpt d0).1, (hpt d0).2.1, (hpt d0).2.2⟩
  · intro d0 hd0
    refine ⟨_, ?_, (hpt d0).1, (hpt d0).2.1, (hpt d0).2.2⟩
    simp only [gcTouched]
    exact List.mem_map_of_mem _ hd0

/-- `Bus._gc_devices` preserves the bus invariant: collected devices'
clients are detached into the unattached list and surviving devices keep
their attachments intact. -/
theorem gcDevices_inv (s : BusState) (t : Nat) (hinv : BusInv s) :
    BusInv (gcDevices s t).1 := by
  obtain ⟨hmain, hback, hnobc, hunatt, hunodup, hdnodup, huniq⟩ := hinv
  obtain ⟨hmapid, hfwd, hbwd⟩ := gcTouched_facts s t
  have hval : ∀ d ∈ gcTouched s t, ∀ cid ∈ d.clients,
      ∃ c, s.clients[cid]? = some c ∧ c.broadcast = false := by
    intro d hd cid hcid
    obtain ⟨d0, hd0, -, hcl, -⟩ := hfwd d hd
    obtain ⟨c, hc, -⟩ := hback d0 hd0 cid (hcl ▸ hcid)
    exact ⟨c, hc, hnobc cid c hc⟩
  have hndcl : ∀ d ∈ gcTouched s t, d.clients.Nodup := by
    intro d hd
    obtain ⟨d0, hd0, -, hcl, -⟩ := hfwd d hd
    rw [hcl]
    exact hdnodup d0 hd0
  have huniq1 : ((gcTouched s t).map DeviceT.device_id).Nodup := by
    rw [hmapid]; exact huniq
  have hdisj : ∀ a ∈ gcTouched s t, ∀ b ∈ gcTouched s t,
      a.device_id ≠ b.device_id → ∀ x ∈ a.clients, x ∉ b.clients := by
    intro a ha b hb hne x hxa hxb
    obtain ⟨a0, ha0, haid, hacl, -⟩ := hfwd a ha
    obtain ⟨b0, hb0, hbid, hbcl, -⟩ := hfwd b hb
    obtain ⟨c, hc, hcd⟩ := hback a0 ha0 x (hacl ▸ hxa)
    obtain ⟨c2, hc2, hcd2⟩ := hback b0 hb0 x (hbcl ▸ hxb)
    rw [hc] at hc2
    rw [← Option.some.inj hc2] at hcd2
    rw [hcd] at hcd2
    exact hne (haid.trans ((Option.some.inj hcd2).trans hbid.symm))
  have hdisj2 : ∀ a ∈ gcTouched s t, ∀ b ∈ gcTouched s t, a ≠ b →
      ∀ x ∈ a.clients, x ∉ b.clients := by
    intro a ha b hb hne x hxa hxb
    refine hdisj a ha b hb (fun hid => hne ?_) x hxa hxb
    exact eq_of_mem_map_nodup DeviceT.device_id _ huniq1 a ha b hb hid
  have hpair : (gcTouched s t).Pairwise
      (fun a b => ∀ x ∈ a.clients, x ∉ b.clients) := by
    have hpairne : (gcTouched s t).Pairwise
        (fun a b => a.device_id ≠ b.device_id) := List.pairwise_map.mp huniq1
    exact List.Pairwise.imp_of_mem
      (fun ha hb hne => hdisj _ ha _ hb hne) hpairne
  obtain ⟨Gsub, Gkeep0, Gkeep, Gframe, Gdet, det, Gun, Gdetnd, Gdetm⟩ :=
    gcScan_spec t (gcTouched s t) s.clients s.unattached hval hndcl hpair
  have hstate : (gcDevices s t).1 = { s with
      devices := (gcScan s.clients s.unattached t (gcTouched s t)).1
      clients := (gcScan s.clients s.unattached t (gcTouched s t)).2.1
      unattached := (gcScan s.clients s.unattached t (gcTouched s t)).2.2.1 } :=
    rfl
  rw [hstate]
  constructor
  · -- main
    intro cid c dId hc hdev
    by_cases hps : ∃ d2, d2 ∈ gcTouched s t ∧
        (d2.last_seen : Int) < (t : Int) - 2000 ∧ cid ∈ d2.clients
    · obtain ⟨d2, hd2, hst2, hcid2⟩ := hps
      obtain ⟨c0, hc0, hnew⟩ := Gdet d2 hd2 hst2 cid hcid2
      rw [hnew] at hc
      rw [← Option.some.inj hc] at hdev
      simp at hdev
    · have hfr := Gframe cid (fun d hd hs hin => hps ⟨d, hd, hs, hin⟩)
      rw [hfr] at hc
      obtain ⟨d0, hd0, hid0, hcin0, i, hsi, hpos, hsc⟩ := hmain cid c dId hc hdev
      obtain ⟨d1, hd1, hid1, hcl1, hsc1⟩ := hbwd d0 hd0
      have hcin1 : cid ∈ d1.clients := by rw [hcl1]; exact hcin0
      have hns1 : ¬((d1.last_seen : Int) < (t : Int) - 2000) :=
        fun hst1 => hps ⟨d1, hd1, hst1, hcin1⟩
      exact ⟨d1, Gkeep d1 hd1 hns1, hid1.trans hid0, hcin1, i, hsi, hpos,
        (hsc1 i).trans hsc⟩
  · -- back
    intro d hd cid hcid
    obtain ⟨hd1, hns⟩ := Gkeep0 d hd
    obtain ⟨d0, hd0, hid, hcl, -⟩ := hfwd d hd1
    obtain ⟨c, hc, hcd⟩ := hback d0 hd0 cid (hcl ▸ hcid)
    have hps : ¬∃ d2, d2 ∈ gcTouched s t ∧
        (d2.last_seen : Int) < (t : Int) - 2000 ∧ cid ∈ d2.clients := by
      rintro ⟨d2, hd2, hst2, hcid2⟩
      have hne : d2 ≠ d := fun he => hns (he ▸ hst2)
      exact hdisj2 d2 hd2 d hd1 hne cid hcid2 hcid
    refine ⟨c, ?_, ?_⟩
    · rw [Gframe cid (fun d3 hd3 hs3 hin => hps ⟨d3, hd3, hs3, hin⟩)]
      exact hc
    · rw [hid]
      exact hcd
  · -- nobc
    intro cid c hc
    by_cases hps : ∃ d2, d2 ∈ gcTouched s t ∧
        (d2.last_seen : Int) < (t : Int) - 2000 ∧ cid ∈ d2.clients
    · obtain ⟨d2, hd2, hst2, hcid2⟩ := hps
      obtain ⟨c0, hc0, hnew⟩ := Gdet d2 hd2 hst2 cid hcid2
      rw [hnew] at hc
      rw [← Option.some.inj hc]
      exact hnobc cid c0 hc0
    · rw [Gframe cid (fun d hd hs hin => hps ⟨d, hd, hs, hin⟩)] at hc
      exact hnobc cid c hc
  · -- unatt
    intro cid hcid
    rw [Gun] at hcid
    rcases List.mem_append.mp hcid with h | h
    · obtain ⟨c, hc, hdev⟩ := hunatt cid h
      have hps : ¬∃ d2, d2 ∈ gcTouched s t ∧
          (d2.last_seen : Int) < (t : Int) - 2000 ∧ cid ∈ d2.clients := by
        rintro ⟨d2, hd2, hst2, hcid2⟩
        obtain ⟨d0, hd0, -, hcl, -⟩ := hfwd d2 hd2
        obtain ⟨c2, hc2, hcd2⟩ := hback d0 hd0 cid (hcl ▸ hcid2)
        rw [hc] at hc2
        rw [← Option.some.inj hc2] at hcd2
        rw [hdev] at hcd2
        exact Option.noConfusion hcd2
      refine ⟨c, ?_, hdev⟩
      rw [Gframe cid (fun d hd hs hin => hps ⟨d, hd, hs, hin⟩)]
      exact hc
    · obtain ⟨d2, hd2, hst2, hcid2⟩ := Gdetm cid h
      obtain ⟨c0, hc0, hnew⟩ := Gdet d2 hd2 hst2 cid hcid2
      exact ⟨_, hnew, rfl⟩
  · -- unodup
    rw [Gun]
    refine List.nodup_append.mpr ⟨hunodup, Gdetnd, ?_⟩
    intro x hx hx2
    obtain ⟨c, hc, hdev⟩ := hunatt x hx
    obtain ⟨d2, hd2, hst2, hcid2⟩ := Gdetm x hx2
    obtain ⟨d0, hd0, -, hcl, -⟩ := hfwd d2 hd2
    obtain ⟨c2, hc2, hcd2⟩ := hback d0 hd0 x (hcl ▸ hcid2)
    rw [hc] at hc2
    rw [← Option.some.inj hc2] at hcd2
    rw [hdev] at hcd2
    exact Option.noConfusion hcd2
  · -- dnodup
    intro d hd
    exact hndcl d (Gkeep0 d hd).1
  · -- uniq
    exact List.Nodup.sublist (Gsub.map DeviceT.device_id) huniq1

/-- A matching announce (`_service_matches` true) leaves every service class
slot unchanged: the buffers agree from byte 4 on and have equal length, and
slot `i > 0` reads bytes `4*i .. 4*i+3`. -/
theorem service_class_at_matches (dev : DeviceT) (data : List Nat)
    (h : serviceMatches dev data = true) (i : Nat) :
    DeviceT.service_class_at { dev with services := data } i =
      dev.service_class_at i := by
  simp only [serviceMatches] at h
  by_cases hc : dev.services = [] ∨ dev.services.length ≠ data.length
  · rw [if_pos hc] at h
    exact absurd h (by simp)
  · rw [if_neg hc] at h
    have hdrop : dev.services.drop 4 = data.drop 4 := beq_iff_eq.mp h
    have hlen : dev.services.length = data.length :=
      not_not.mp (not_or.mp hc).2
    have hbyte : ∀ n, 4 ≤ n → data.getD n 0 = dev.services.getD n 0 := by
      intro n hn
      have h4 : 4 + (n - 4) = n := by omega
      rw [List.getD_eq_getElem?_getD, List.getD_eq_getElem?_getD,
        ← h4, ← List.getElem?_drop, ← List.getElem?_drop, hdrop]
    by_cases hi : i = 0
    · rw [hi]
      rfl
    · simp only [DeviceT.service_class_at, DeviceT.num_service_classes,
        if_neg hi]
      have hnum : data.length >>> 2 = dev.services.length >>> 2 := by rw [hlen]
      rw [hnum]
      by_cases hge : i ≥ dev.services.length >>> 2
      · rw [if_pos hge, if_pos hge]
      · rw [if_neg hge, if_neg hge]
        have hoff : 4 ≤ i <<< 2 := by
          rw [Nat.shiftLeft_eq]
          calc 4 = 1 * 2 ^ 2 := rfl
          _ ≤ i * 2 ^ 2 :=
            Nat.mul_le_mul_right _ (Nat.one_le_iff_ne_zero.mpr hi)
        simp only [u32]
        rw [hbyte _ hoff, hbyte _ (by omega), hbyte _ (by omega),
          hbyte _ (by omega)]

/-- Members of the device table after `eraseP` on an identifier: still in
the table, and (identifiers being unique) not carrying the erased id. -/
theorem mem_eraseP_devid (l : List DeviceT) (did : Nat)
    (h : (l.map DeviceT.device_id).Nodup) :
    ∀ d ∈ l.eraseP (fun x => x.device_id == did),
      d ∈ l ∧ d.device_id ≠ did := by
  induction l with
  | nil =>
    intro d hd
    simp [List.eraseP] at hd
  | cons x rest ih =>
    intro d hd
    simp only [List.map_cons, List.nodup_cons] at h
    by_cases hx : x.device_id = did
    · rw [List.eraseP_cons_of_pos (by simp [hx])] at hd
      refine ⟨List.mem_cons_of_mem _ hd, ?_⟩
      intro hdid
      exact h.1 (by rw [hx, ← hdid]; exact List.mem_map_of_mem _ hd)
    · rw [List.eraseP_cons_of_neg (by simp [hx])] at hd
      rcases List.mem_cons.mp hd with rfl | hd2
      · exact ⟨List.mem_cons_self _ _, hx⟩
      · obtain ⟨h1, h2⟩ := ih h.2 d hd2
        exact ⟨List.mem_cons_of_mem _ h1, h2⟩

/-- A table member that does not carry the erased identifier survives the
`eraseP`. -/
theorem mem_eraseP_of_ne (l : List DeviceT) (did : Nat) (d : DeviceT)
    (hd : d ∈ l) (hne : d.device_id ≠ did) :
    d ∈ l.eraseP (fun x => x.device_id == did) := by
  induction l with
  | nil => cases hd
  | cons x rest ih =>
    by_cases hx : x.device_id = did
    · rw [List.eraseP_cons_of_pos (by simp [hx])]
      rcases List.mem_cons.mp hd with rfl | hd2
      · exact absurd hx hne
      · exact hd2
    · rw [List.eraseP_cons_of_neg (by simp [hx])]
      rcases List.mem_cons.mp hd with rfl | hd2
      · exact List.mem_cons_self _ _
      · exact List.mem_cons_of_mem _ (ih hd2)

/-- Announce with unchanged service vector: replacing the device's services
by an equal-classes buffer preserves the invariant. -/
theorem announce_upd_inv (s : BusState) (pkt : JDPacket) (dev : DeviceT)
    (hinv : BusInv s)
    (hfind : s.devices.find? (fun d => d.device_id == pkt.device_identifier) =
      some dev)
    (hsm : serviceMatches dev pkt.data = true) :
    BusInv { s with
      devices := updDev s.devices { dev with services := pkt.data } } := by
  obtain ⟨hmain, hback, hnobc, hunatt, hunodup, hdnodup, huniq⟩ := hinv
  have hmem : dev ∈ s.devices := List.mem_of_find?_eq_some hfind
  have hsc := service_class_at_matches dev pkt.data hsm
  constructor
  · intro cid c dId hc hdev
    obtain ⟨d, hd, hid, hcin, i, hsi, hpos, hscd⟩ := hmain cid c dId hc hdev
    by_cases hde : d.device_id = dev.device_id
    · have hdd : d = dev :=
        eq_of_mem_map_nodup DeviceT.device_id _ huniq d hd dev hmem hde
      refine ⟨{ dev with services := pkt.data },
        mem_updDev_self _ _ ⟨dev, hmem, rfl⟩, ?_, ?_, i, hsi, hpos, ?_⟩
      · show dev.device_id = dId
        rw [← hdd]
        exact hid
      · show cid ∈ dev.clients
        rw [← hdd]
        exact hcin
      · rw [hsc i, ← hdd]
        exact hscd
    · exact ⟨d, mem_updDev_of_ne _ _ d hd hde, hid, hcin, i, hsi, hpos, hscd⟩
  · intro d hd cid hcid
    rcases updDev_mem_cases _ _ _ hd with rfl | ⟨hd2, _⟩
    · exact hback dev hmem cid hcid
    · exact hback d hd2 cid hcid
  · exact hnobc
  · exact hunatt
  · exact hunodup
  · intro d hd
    rcases updDev_mem_cases _ _ _ hd with rfl | ⟨hd2, _⟩
    · exact hdnodup dev hmem
    · exact hdnodup d hd2
  · show ((updDev s.devices
      { dev with services := pkt.data }).map DeviceT.device_id).Nodup
    rw [updDev_map_id]
    exact huniq

/-- Announce with a changed service vector: the services are replaced and
`_reattach` runs on the updated device; the invariant is preserved. -/
theorem announce_changed_inv (s : BusState) (pkt : JDPacket) (t : Nat)
    (dev : DeviceT) (hinv : BusInv s)
    (hfind : s.devices.find? (fun d => d.device_id == pkt.device_identifier) =
      some dev) :
    BusInv (busReattach { s with
        devices := updDev s.devices { dev with services := pkt.data } }
      { dev with services := pkt.data } t).1 := by
  obtain ⟨hmain, hback, hnobc, hunatt, hunodup, hdnodup, huniq⟩ := hinv
  have hmem : dev ∈ s.devices := List.mem_of_find?_eq_some hfind
  refine busReattach_inv _ _ t (mem_updDev_self _ _ ⟨dev, hmem, rfl⟩)
    ?_ ?_ ?_ hnobc hunatt hunodup ?_ ?_
  · -- clients of other devices
    intro cid c dId hc hdev hne
    obtain ⟨d, hd, hid, hcin, i, hsi, hpos, hscd⟩ := hmain cid c dId hc hdev
    have hde : d.device_id ≠ DeviceT.device_id { dev with services := pkt.data } :=
      fun he => hne (hid ▸ he)
    exact ⟨d, mem_updDev_of_ne _ _ d hd hde, hid, hcin, i, hsi, hpos, hscd⟩
  · -- clients of the announcing device
    intro cid c hc hdev
    obtain ⟨d, hd, hid, hcin, i, hsi, hpos, -⟩ := hmain cid c _ hc hdev
    have hdd : d = dev :=
      eq_of_mem_map_nodup DeviceT.device_id _ huniq d hd dev hmem hid
    constructor
    · show cid ∈ dev.clients
      rw [← hdd]
      exact hcin
    · exact ⟨i, hsi, hpos⟩
  · -- back pointers
    intro d hd cid hcid
    rcases updDev_mem_cases _ _ _ hd with rfl | ⟨hd2, _⟩
    · exact hback dev hmem cid hcid
    · exact hback d hd2 cid hcid
  · -- per-device Nodup
    intro d hd
    rcases updDev_mem_cases _ _ _ hd with rfl | ⟨hd2, _⟩
    · exact hdnodup dev hmem
    · exact hdnodup d hd2
  · -- unique identifiers
    show ((updDev s.devices
      { dev with services := pkt.data }).map DeviceT.device_id).Nodup
    rw [updDev_map_id]
    exact huniq

/-- Announce from an unknown device: a fresh `Device` is appended and
`_reattach` runs on it; the invariant is preserved. -/
theorem announce_new_inv (s : BusState) (pkt : JDPacket) (t : Nat)
    (hinv : BusInv s)
    (hnone : s.devices.find?
      (fun d => d.device_id == pkt.device_identifier) = none) :
    BusInv (busReattach { s with
        devices := s.devices ++
          [⟨pkt.device_identifier, pkt.data, [], t, none⟩] }
      ⟨pkt.device_identifier, pkt.data, [], t, none⟩ t).1 := by
  obtain ⟨hmain, hback, hnobc, hunatt, hunodup, hdnodup, huniq⟩ := hinv
  have hno : ∀ d ∈ s.devices, d.device_id ≠ pkt.device_identifier := by
    intro d hd
    have := List.find?_eq_none.mp hnone d hd
    simpa using this
  refine busReattach_inv _ _ t ?_ ?_ ?_ ?_ hnobc hunatt hunodup ?_ ?_
  · exact List.mem_append_right _ (List.mem_singleton.mpr rfl)
  · intro cid c dId hc hdev hne
    obtain ⟨d, hd, hid, hcin, i, hsi, hpos, hscd⟩ := hmain cid c dId hc hdev
    exact ⟨d, List.mem_append_left _ hd, hid, hcin, i, hsi, hpos, hscd⟩
  · intro cid c hc hdev
    obtain ⟨d, hd, hid, -⟩ := hmain cid c _ hc hdev
    exact absurd hid (hno d hd)
  · intro d hd cid hcid
    have hd' : d ∈ s.devices ++
        [(⟨pkt.device_identifier, pkt.data, [], t, none⟩ : DeviceT)] := hd
    rcases List.mem_append.mp hd' with hd2 | hd2
    · exact hback d hd2 cid hcid
    · rw [List.mem_singleton.mp hd2] at hcid
      cases hcid
  · intro d hd
    have hd' : d ∈ s.devices ++
        [(⟨pkt.device_identifier, pkt.data, [], t, none⟩ : DeviceT)] := hd
    rcases List.mem_append.mp hd' with hd2 | hd2
    · exact hdnodup d hd2
    · rw [List.mem_singleton.mp hd2]
      exact List.nodup_nil
  · show ((s.devices ++
      [(⟨pkt.device_identifier, pkt.data, [], t, none⟩ : DeviceT)]).map
        DeviceT.device_id).Nodup
    rw [List.map_append]
    refine List.nodup_append.mpr ⟨huniq, by simp, ?_⟩
    intro a ha hb
    simp only [List.map_cons, List.map_nil, List.mem_singleton] at hb
    obtain ⟨d, hd, hdid⟩ := List.mem_map.mp ha
    exact hno d hd (hdid.trans hb)

/-- Announce with a dropped restart counter: the old device is erased, its
clients destroyed, and a fresh device appended before `_reattach`; the
invariant is preserved. -/
theorem announce_restart_inv (s : BusState) (pkt : JDPacket) (t : Nat)
    (dev : DeviceT) (hinv : BusInv s)
    (hfind : s.devices.find?
      (fun d => d.device_id == pkt.device_identifier) = some dev) :
    BusInv (busReattach { s with
        clients := (destroyClients s.clients s.unattached dev.clients).1
        unattached := (destroyClients s.clients s.unattached dev.clients).2.1
        devices := s.devices.eraseP (fun d => d.device_id == dev.device_id) ++
          [⟨pkt.device_identifier, pkt.data, [], t, none⟩] }
      ⟨pkt.device_identifier, pkt.data, [], t, none⟩ t).1 := by
  obtain ⟨hmain, hback, hnobc, hunatt, hunodup, hdnodup, huniq⟩ := hinv
  have hmem : dev ∈ s.devices := List.mem_of_find?_eq_some hfind
  have hdid : dev.device_id = pkt.device_identifier := by
    have := List.find?_some hfind
    simpa using this
  have hvalD : ∀ cid ∈ dev.clients,
      ∃ c, s.clients[cid]? = some c ∧ c.broadcast = false := by
    intro cid hd
    obtain ⟨c, hc, -⟩ := hback dev hmem cid hd
    exact ⟨c, hc, hnobc cid c hc⟩
  have hndD : dev.clients.Nodup := hdnodup dev hmem
  obtain ⟨Df, Dd, Du, -⟩ :=
    destroyClients_spec dev.clients s.clients s.unattached hvalD hndD
  have hdisjD : ∀ cid ∈ s.unattached, cid ∉ dev.clients := by
    intro cid hu hd
    obtain ⟨c1, h1, hdev1⟩ := hunatt cid hu
    obtain ⟨c2, h2, hdev2⟩ := hback dev hmem cid hd
    rw [h1] at h2
    rw [(Option.some.inj h2).symm] at hdev2
    rw [hdev1] at hdev2
    cases hdev2
  have hE := mem_eraseP_devid s.devices dev.device_id huniq
  have hEnd : ((s.devices.eraseP
      (fun d => d.device_id == dev.device_id)).map DeviceT.device_id).Nodup :=
    List.Nodup.sublist ((List.eraseP_sublist _).map DeviceT.device_id) huniq
  refine busReattach_inv _ _ t ?_ ?_ ?_ ?_ ?_ ?_ ?_ ?_ ?_
  · exact List.mem_append_right _ (List.mem_singleton.mpr rfl)
  · -- clients of other devices
    intro cid c dId hc hdev2 hne
    by_cases hin : cid ∈ dev.clients
    · obtain ⟨c0, hc0, hres⟩ := Dd cid hin
      rw [← Option.some.inj (hres.symm.trans hc)] at hdev2
      simp at hdev2
    · have hc' : s.clients[cid]? = some c := (Df cid hin).symm.trans hc
      obtain ⟨d, hd, hid, hcin, i, hsi, hpos, hscd⟩ := hmain cid c dId hc' hdev2
      have hdne : d.device_id ≠ dev.device_id := by
        rw [hid, hdid]
        exact hne
      exact ⟨d, List.mem_append_left _
        (mem_eraseP_of_ne s.devices dev.device_id d hd hdne),
        hid, hcin, i, hsi, hpos, hscd⟩
  · -- clients of the fresh device: none exist yet
    intro cid c hc hdev2
    by_cases hin : cid ∈ dev.clients
    · obtain ⟨c0, hc0, hres⟩ := Dd cid hin
      rw [← Option.some.inj (hres.symm.trans hc)] at hdev2
      simp at hdev2
    · have hc' : s.clients[cid]? = some c := (Df cid hin).symm.trans hc
      obtain ⟨d, hd, hid, hcin, -⟩ := hmain cid c _ hc' hdev2
      have hdd : d = dev :=
        eq_of_mem_map_nodup DeviceT.device_id _ huniq d hd dev hmem
          (by rw [hid, hdid])
      rw [hdd] at hcin
      exact absurd hcin hin
  · -- back pointers
    intro d hd cid hcid
    have hd' : d ∈ s.devices.eraseP (fun d => d.device_id == dev.device_id) ++
        [(⟨pkt.device_identifier, pkt.data, [], t, none⟩ : DeviceT)] := hd
    rcases List.mem_append.mp hd' with hd2 | hd2
    · obtain ⟨hdin, hdne⟩ := hE d hd2
      obtain ⟨c, hc, hcd⟩ := hback d hdin cid hcid
      have hnin : cid ∉ dev.clients := by
        intro hin
        obtain ⟨c2, hc2, hcd2⟩ := hback dev hmem cid hin
        rw [hc] at hc2
        rw [← Option.some.inj hc2] at hcd2
        rw [hcd] at hcd2
        exact hdne (Option.some.inj hcd2)
      exact ⟨c, (Df cid hnin).trans hc, hcd⟩
    · rw [List.mem_singleton.mp hd2] at hcid
      cases hcid
  · -- no broadcast clients
    intro cid c hc
    by_cases hin : cid ∈ dev.clients
    · obtain ⟨c0, hc0, hres⟩ := Dd cid hin
      rw [← Option.some.inj (hres.symm.trans hc)]
      exact hnobc cid c0 hc0
    · exact hnobc cid c ((Df cid hin).symm.trans hc)
  · -- unattached are detached
    intro cid hcid
    have hcid' : cid ∈ (destroyClients s.clients s.unattached dev.clients).2.1 :=
      hcid
    rw [Du] at hcid'
    rcases List.mem_append.mp hcid' with h | h
    · obtain ⟨c, hc, hdv⟩ := hunatt cid h
      exact ⟨c, (Df cid (hdisjD cid h)).trans hc, hdv⟩
    · obtain ⟨c0, hc0, hres⟩ := Dd cid h
      exact ⟨_, hres, rfl⟩
  · -- unattached Nodup
    show ((destroyClients s.clients s.unattached dev.clients).2.1).Nodup
    rw [Du]
    refine List.nodup_append.mpr ⟨hunodup, hndD, ?_⟩
    intro x hx hx2
    exact hdisjD x hx hx2
  · -- per-device Nodup
    intro d hd
    have hd' : d ∈ s.devices.eraseP (fun d => d.device_id == dev.device_id) ++
        [(⟨pkt.device_identifier, pkt.data, [], t, none⟩ : DeviceT)] := hd
    rcases List.mem_append.mp hd' with hd2 | hd2
    · exact hdnodup d (hE d hd2).1
    · rw [List.mem_singleton.mp hd2]
      exact List.nodup_nil
  · -- unique identifiers
    show ((s.devices.eraseP (fun d => d.device_id == dev.device_id) ++
      [(⟨pkt.device_identifier, pkt.data, [], t, none⟩ : DeviceT)]).map
        DeviceT.device_id).Nodup
    rw [List.map_append]
    refine List.nodup_append.mpr ⟨hEnd, by simp, ?_⟩
    intro a ha hb
    simp only [List.map_cons, List.map_nil, List.mem_singleton] at hb
    obtain ⟨d, hd, hdid2⟩ := List.mem_map.mp ha
    exact (hE d hd).2 (hdid2.trans (hb.trans hdid.symm))

/-- `Bus.process_packet` preserves the bus invariant on every routing
branch. -/
theorem busProcessPacket_inv (s : BusState) (pkt : JDPacket) (t : Nat)
    (hinv : BusInv s) : BusInv (busProcessPacket s pkt t).1 := by
  by_cases h1 : pkt.multicommand_class ≠ none
  · have hb : (busProcessPacket s pkt t).1 = s := by
      simp [busProcessPacket, h1]
    rw [hb]
    exact hinv
  have hmc : pkt.multicommand_class = none := not_ne_iff.mp h1
  by_cases hcmd : pkt.is_command = true
  · have hb : (busProcessPacket s pkt t).1 = s := by
      simp [busProcessPacket, hmc, hcmd]
    rw [hb]
    exact hinv
  have hcmd' : pkt.is_command = false := by
    simp at hcmd
    exact hcmd
  by_cases hidx : pkt.service_index = 0
  · by_cases hsvc : pkt.service_command = 0
    · rcases hfind : s.devices.find?
          (fun d => d.device_id == pkt.device_identifier) with _ | dev
      · -- unknown device: connect and reattach
        have hb : (busProcessPacket s pkt t).1 =
            (devProcessById (busReattach { s with
                devices := s.devices ++
                  [⟨pkt.device_identifier, pkt.data, [], t, none⟩] }
              ⟨pkt.device_identifier, pkt.data, [], t, none⟩ t).1
              pkt.device_identifier pkt t).1 := by
          simp [busProcessPacket, hmc, hcmd', hidx, hsvc, hfind]
        rw [hb]
        exact devProcessById_inv _ _ _ _ (announce_new_inv s pkt t hinv hfind)
      · by_cases hlen : dev.services.length < 2 ∨ pkt.data = []
        · -- malformed announce: dropped before any mutation
          have hb : (busProcessPacket s pkt t).1 = s := by
            simp [busProcessPacket, hmc, hcmd', hidx, hsvc, hfind, hlen]
          rw [hb]
          exact hinv
        · by_cases hrst : pkt.data.getD 0 0 &&& 0xf < dev.reset_count
          · -- restart: destroy, recreate, reattach
            have hrstE : pkt.data[0]?.getD 0 &&& 15 < dev.reset_count := by
              simpa [List.getD_eq_getElem?_getD] using hrst
            have hb : (busProcessPacket s pkt t).1 =
                (devProcessById (busReattach { s with
                    clients :=
                      (destroyClients s.clients s.unattached dev.clients).1
                    unattached :=
                      (destroyClients s.clients s.unattached dev.clients).2.1
                    devices := s.devices.eraseP
                        (fun d => d.device_id == dev.device_id) ++
                      [⟨pkt.device_identifier, pkt.data, [], t, none⟩] }
                  ⟨pkt.device_identifier, pkt.data, [], t, none⟩ t).1
                  pkt.device_identifier pkt t).1 := by
              simp [busProcessPacket, hmc, hcmd', hidx, hsvc, hfind, hlen,
                hrstE]
            rw [hb]
            exact devProcessById_inv _ _ _ _
              (announce_restart_inv s pkt t dev hinv hfind)
          · have hrstE : ¬(pkt.data[0]?.getD 0 &&& 15 < dev.reset_count) := by
              simpa [List.getD_eq_getElem?_getD] using hrst
            by_cases hsm : serviceMatches dev pkt.data = true
            · -- services unchanged: plain dispatch
              have hb : (busProcessPacket s pkt t).1 =
                  (devProcessById { s with
                      devices := updDev s.devices
                        { dev with services := pkt.data } }
                    pkt.device_identifier pkt t).1 := by
                simp [busProcessPacket, hmc, hcmd', hidx, hsvc, hfind, hlen,
                  hrstE, hsm]
              rw [hb]
              exact devProcessById_inv _ _ _ _
                (announce_upd_inv s pkt dev hinv hfind hsm)
            · -- services changed: reattach on the updated device
              have hsm' : serviceMatches dev pkt.data = false := by
                simp at hsm
                exact hsm
              have hb : (busProcessPacket s pkt t).1 =
                  (devProcessById (busReattach { s with
                      devices := updDev s.devices
                        { dev with services := pkt.data } }
                    { dev with services := pkt.data } t).1
                    pkt.device_identifier pkt t).1 := by
                simp [busProcessPacket, hmc, hcmd', hidx, hsvc, hfind, hlen,
                  hrstE, hsm']
              rw [hb]
              exact devProcessById_inv _ _ _ _
                (announce_changed_inv s pkt t dev hinv hfind)
    · -- a non-announce control report
      rcases hfind : s.devices.find?
          (fun d => d.device_id == pkt.device_identifier) with _ | dev
      · have hb : (busProcessPacket s pkt t).1 = s := by
          simp [busProcessPacket, hmc, hcmd', hidx, hsvc, hfind]
        rw [hb]
        exact hinv
      · have hb : (busProcessPacket s pkt t).1 =
            (devProcessById s dev.device_id pkt t).1 := by
          simp [busProcessPacket, hmc, hcmd', hidx, hsvc, hfind]
        rw [hb]
        exact devProcessById_inv _ _ _ _ hinv
  · -- a non-control report
    rcases hfind : s.devices.find?
        (fun d => d.device_id == pkt.device_identifier) with _ | dev
    · have hb : (busProcessPacket s pkt t).1 = s := by
        simp [busProcessPacket, hmc, hcmd', hidx, hfind]
      rw [hb]
      exact hinv
    · have hb : (busProcessPacket s pkt t).1 =
          (devProcessById s dev.device_id pkt t).1 := by
        simp [busProcessPacket, hmc, hcmd', hidx, hfind]
      rw [hb]
      exact devProcessById_inv _ _ _ _ hinv

/-- The freshly constructed bus satisfies the invariant: no clients exist
and the self device lists none. -/
theorem initState_inv (selfId t0 : Nat) : BusInv (initState selfId t0) := by
  constructor
  · intro cid c dId hc
    simp [initState] at hc
  · intro d hd cid hcid
    simp only [initState, List.mem_singleton] at hd
    rw [hd] at hcid
    cases hcid
  · intro cid c hc
    simp [initState] at hc
  · intro cid hcid
    simp [initState] at hcid
  · simp [initState]
  · intro d hd
    simp only [initState, List.mem_singleton] at hd
    rw [hd]
    exact List.nodup_nil
  · simp [initState]

/-- Constructing a `Client` preserves the invariant: the new entry is
detached, non-broadcast, and appended past every existing index. -/
theorem newClient_inv (s : BusState) (sc : Nat) (role : String)
    (hinv : BusInv s) : BusInv (newClient s sc role) := by
  obtain ⟨hmain, hback, hnobc, hunatt, hunodup, hdnodup, huniq⟩ := hinv
  have hlt : ∀ (j : Nat) (c : ClientT), s.clients[j]? = some c →
      j < s.clients.length := by
    intro j c hc
    by_contra hge
    rw [List.getElem?_eq_none (Nat.le_of_not_lt hge)] at hc
    cases hc
  have happ : ∀ (j : Nat) (c : ClientT), s.clients[j]? = some c →
      ∀ nc : ClientT, (s.clients ++ [nc])[j]? = some c := by
    intro j c hc nc
    rw [List.getElem?_append_left (hlt j c hc)]
    exact hc
  have hpt : ∀ (nc : ClientT) (j : Nat) (c : ClientT),
      (s.clients ++ [nc])[j]? = some c →
      s.clients[j]? = some c ∨ (j = s.clients.length ∧ c = nc) := by
    intro nc j c hc
    by_cases hj : j < s.clients.length
    · rw [List.getElem?_append_left hj] at hc
      exact Or.inl hc
    · rw [List.getElem?_append_right (Nat.le_of_not_lt hj)] at hc
      rcases hd : j - s.clients.length with _ | k
      · rw [hd] at hc
        refine Or.inr ⟨?_, (Option.some.inj hc).symm⟩
        omega
      · rw [hd] at hc
        simp at hc
  constructor
  · intro cid c dId hc hdev
    rcases hpt _ cid c hc with h | ⟨-, rfl⟩
    · exact hmain cid c dId h hdev
    · cases hdev
  · intro d hd cid hcid
    obtain ⟨c, hc, hcd⟩ := hback d hd cid hcid
    exact ⟨c, happ cid c hc _, hcd⟩
  · intro cid c hc
    rcases hpt _ cid c hc with h | ⟨-, rfl⟩
    · exact hnobc cid c h
    · rfl
  · intro cid hcid
    have hcid' : cid ∈ s.unattached ++ [s.clients.length] := hcid
    rcases List.mem_append.mp hcid' with h | h
    · obtain ⟨c, hc, hdv⟩ := hunatt cid h
      exact ⟨c, happ cid c hc _, hdv⟩
    · rw [List.mem_singleton.mp h]
      exact ⟨_, List.getElem?_concat_length _ _, rfl⟩
  · show (s.unattached ++ [s.clients.length]).Nodup
    refine List.nodup_append.mpr ⟨hunodup, by simp, ?_⟩
    intro x hx hb
    obtain ⟨c, hc, -⟩ := hunatt x hx
    have hx2 := hlt x c hc
    rw [List.mem_singleton.mp hb] at hx2
    exact absurd hx2 (lt_irrefl _)
  · exact hdnodup
  · exact huniq

/-- Registering a `Server` only extends the server table and preserves the
invariant trivially. -/
theorem addServer_inv (s : BusState) (sc : Nat) (hinv : BusInv s) :
    BusInv (addServer s sc) := by
  obtain ⟨hmain, hback, hnobc, hunatt, hunodup, hdnodup, huniq⟩ := hinv
  exact ⟨hmain, hback, hnobc, hunatt, hunodup, hdnodup, huniq⟩

/-- Every reachable bus state satisfies the full invariant. -/
theorem Reachable_inv (s : BusState) (h : Reachable s) : BusInv s := by
  induction h with
  | init selfId t0 => exact initState_inv selfId t0
  | packet s pkt t hr ih => exact busProcessPacket_inv s pkt t ih
  | gc s t hr ih => exact gcDevices_inv s t ih
  | client s sc role hr ih => exact newClient_inv s sc role ih
  | server s sc hr ih => exact addServer_inv s sc ih

/-- C4: in every reachable bus state, every attached client — a client-table
entry whose `device` is set — is contained in its device's `clients` list,
its `service_index` is strictly positive, and the device's
`service_class_at` that index equals the client's `service_class`. -/
theorem attached_client_invariant (s : BusState) (hs : Reachable s)
    (cid : Nat) (c : ClientT) (dId : Nat)
    (hc : s.clients[cid]? = some c) (hdev : c.device = some dId) :
    ∃ d, d ∈ s.devices ∧ d.device_id = dId ∧ cid ∈ d.clients ∧
      ∃ i, c.service_index = some i ∧ 0 < i ∧
        d.service_class_at i = some c.service_class :=
  (Reachable_inv s hs).main cid c dId hc hdev

/-- C4 witness: after constructing one accelerometer client and routing
device 2's announce, client 0 is attached to device 2 at slot 1, and the
invariant instance follows from the theorem at that state. -/
theorem attached_client_invariant_witness :
    Reachable busAttachW ∧
    busAttachW.clients[0]? = some clientAttachedW ∧
    clientAttachedW.device = some 2 ∧
    ∃ d, d ∈ busAttachW.devices ∧ d.device_id = 2 ∧ 0 ∈ d.clients ∧
      ∃ i, clientAttachedW.service_index = some i ∧ 0 < i ∧
        d.service_class_at i = some clientAttachedW.service_class :=
  ⟨Reachable.packet _ annW 100
      (Reachable.client _ 0x1f140409 "acc" (Reachable.init 9 0)),
   by decide, by decide,
   attached_client_invariant busAttachW
     (Reachable.packet _ annW 100
       (Reachable.client _ 0x1f140409 "acc" (Reachable.init 9 0)))
     0 clientAttachedW 2 (by decide) (by decide)⟩

end Jacdac
